import Mathlib

/-!
# Verification of the rust-doc-mcp server core

Shallow embedding of the repository's core, translated from the source:

* `src/unnamed/part_001` (compiled `db.js`, first copy — the one with the
  `documentation_fts` FTS5 table and the `documentation_ai` trigger):
  the `DocumentationDB` store — schema, `addDocument`, `searchDocs`,
  `addPattern`, `addErrorSolution`, `findErrorSolutions`,
  `getPatternsByFramework`.
* `src/unnamed/part_004` (`server.ts` / `types.ts`): the `BaseServer`
  JSON-RPC line loop, `handleRequest`, error codes.
* `src/src/index.ts`: the `RustDocServer` dispatcher — `setupHandlers`,
  `getTools`, `callTool`, the formatters.

Modelling conventions:
* JavaScript/SQLite machinery that is not repository code is given its
  documented semantics: `JSON.parse` is modelled by an executable JSON
  parser over a `Json` inductive (integers only — the claims' inputs use
  only integers; duplicate keys and `\u` surrogate pairing are not
  exercised); JS truthiness and member access are modelled explicitly;
  SQLite `LIKE` is modelled with its default ASCII-case-insensitive
  semantics; FTS5 `MATCH` of an `OR`-joined list of quoted prefix phrases
  is modelled by phrase-prefix matching over tokenized columns.
* The FTS5 tokenizer (`porter unicode61`) splits on non-alphanumeric
  characters, case-folds, and stems each token. The Porter stemmer is
  external library code, so it is a parameter `stem : String → String` of
  every definition that tokenizes; theorems hold for every `stem`, and
  witnesses instantiate the identity stemmer.
* `ORDER BY rank` (bm25 relevance) is not modelled: result rows keep table
  order. Every verified claim is order-insensitive in the search results.
* External collaborators (axios/jsdom/octokit fetchers, filesystem) are
  out of the core per the spec; their outcomes are parameters (`ExtWorld`).
-/

/-! ## Character and list utilities -/

/-- The left curly brace character (written via its code point). -/
def lbrace : Char := Char.ofNat 123

/-- The right curly brace character (written via its code point). -/
def rbrace : Char := Char.ofNat 125

/-- JSON/JS whitespace for the purposes of `JSON.parse` framing. -/
def isWsChar (c : Char) : Bool := c == ' ' || c == '\t' || c == '\n' || c == '\r'

/-- ASCII-only lower-casing, as used by SQLite `LIKE` (which folds only A-Z). -/
def lowAscii (c : Char) : Char :=
  if 'A' ≤ c ∧ c ≤ 'Z' then Char.ofNat (c.toNat + 32) else c

/-- `isPrefixList p l` : `p` is a prefix of `l` (boolean, over char lists). -/
def isPrefixList : List Char → List Char → Bool
  | [], _ => true
  | _ :: _, [] => false
  | a :: as, b :: bs => a == b && isPrefixList as bs

/-- `isInfixB p l` : `p` occurs as a contiguous run inside `l` (boolean). -/
def isInfixB (p : List Char) : List Char → Bool
  | [] => isPrefixList p []
  | c :: t => isPrefixList p (c :: t) || isInfixB p t

/-- Split a character list at every occurrence of the separator `c`,
keeping empty pieces — the semantics of JavaScript `String.split(c)`. -/
def splitOnChar (c : Char) : List Char → List (List Char)
  | [] => [[]]
  | a :: as =>
    match splitOnChar c as with
    | [] => [[]]
    | w :: ws => if a == c then [] :: w :: ws else (a :: w) :: ws

/-- Join character lists with a single separator character between pieces —
the semantics of SQL `GROUP_CONCAT(x, sep)` over the listed values. -/
def joinWithChar (c : Char) : List (List Char) → List Char
  | [] => []
  | [w] => w
  | w :: ws => w ++ c :: joinWithChar c ws

/-- Maximal runs of characters satisfying `keep` (a generic word splitter:
separators are dropped, empty words do not appear). `acc` holds the
current word, reversed. -/
def wordsByAux (keep : Char → Bool) (acc : List Char) : List Char → List (List Char)
  | [] => if acc.isEmpty then [] else [acc.reverse]
  | c :: cs =>
    if keep c then wordsByAux keep (c :: acc) cs
    else if acc.isEmpty then wordsByAux keep [] cs
    else acc.reverse :: wordsByAux keep [] cs

/-- Maximal `keep`-runs of a character list. -/
def wordsBy (keep : Char → Bool) (l : List Char) : List (List Char) :=
  wordsByAux keep [] l

/-- JavaScript `s.split(c)` for a single-character separator: list of the
(possibly empty) pieces between occurrences of `c`. -/
def jsSplitChar (c : Char) (s : String) : List String :=
  (splitOnChar c s.toList).map String.mk

/-- JavaScript `String.prototype.trim` (whitespace stripped at both ends;
modelled with the ASCII whitespace set, which covers the repository's data). -/
def strTrim (s : String) : String :=
  String.mk (((s.toList.dropWhile isWsChar).reverse.dropWhile isWsChar).reverse)

/-- SQLite `LIKE` pattern matching (default, no ESCAPE clause): `%` matches
any run, `_` any single character, and literal characters compare
ASCII-case-insensitively. -/
def likeMatch : List Char → List Char → Bool
  | [], s => s.isEmpty
  | p :: ps, s =>
    if p == '%' then
      likeMatch ps s ||
        (match s with
         | [] => false
         | _ :: cs => likeMatch (p :: ps) cs)
    else
      match s with
      | [] => false
      | c :: cs =>
        if p == '_' then likeMatch ps cs
        else (lowAscii p == lowAscii c) && likeMatch ps cs
termination_by p s => p.length + s.length
decreasing_by all_goals simp_arith

/-! ## The JSON value model and a `JSON.parse` model -/

/-- JSON values as produced by `JSON.parse`. Numbers are modelled as
integers (every number in the claims' inputs is an integer). -/
inductive Json where
  | null
  | bool (b : Bool)
  | num (n : Int)
  | str (s : String)
  | arr (elts : List Json)
  | obj (fields : List (String × Json))

/-- First-match association lookup (the parser never produces duplicate
keys for the inputs under study; `JSON.parse` would keep the last). -/
def assocLookup (k : String) : List (String × Json) → Option Json
  | [] => none
  | (a, v) :: t => if a == k then some v else assocLookup k t

/-- JS member access `j.k` on a non-null value: a field of an object,
`undefined` (`none`) otherwise. -/
def Json.getField : Json → String → Option Json
  | .obj fs, k => assocLookup k fs
  | _, _ => none

/-- JS truthiness of a value. -/
def jsTruthy : Json → Bool
  | .null => false
  | .bool b => b
  | .num n => !(n == 0)
  | .str s => !(s == "")
  | .arr _ => true
  | .obj _ => true

/-- JS truthiness where `none` stands for `undefined`. -/
def jsTruthyOpt : Option Json → Bool
  | none => false
  | some v => jsTruthy v

/-- JS strict equality of a value against a string literal (the only form
of `===`/`switch` comparison the dispatcher performs). -/
def Json.isStrEq : Json → String → Bool
  | .str s, t => s == t
  | _, _ => false

mutual

/-- JS `String(value)` coercion as used inside template literals
(approximate for arrays/objects, which never carry claim-relevant text). -/
def jsDisplay : Json → String
  | .null => "null"
  | .bool b => if b then "true" else "false"
  | .num n => toString n
  | .str s => s
  | .arr l => String.intercalate "," (jsDisplayList l)
  | .obj _ => "[object Object]"

/-- `jsDisplay` mapped over a list (mutual helper). -/
def jsDisplayList : List Json → List String
  | [] => []
  | j :: js => jsDisplay j :: jsDisplayList js

end

/-- JS `String(value)` where `none` stands for `undefined`. -/
def jsDisplayOpt : Option Json → String
  | none => "undefined"
  | some v => jsDisplay v

/-- Hexadecimal digit value. -/
def hexVal (c : Char) : Option Nat :=
  if c.isDigit then some (c.toNat - 48)
  else if 'a' ≤ c ∧ c ≤ 'f' then some (c.toNat - 87)
  else if 'A' ≤ c ∧ c ≤ 'F' then some (c.toNat - 55)
  else none

/-- Parse the body of a JSON string after the opening quote; returns the
decoded content and the input after the closing quote. -/
def parseStringBody : Nat → List Char → Option (List Char × List Char)
  | 0, _ => none
  | _ + 1, [] => none
  | fuel + 1, c :: cs =>
    if c == '"' then some ([], cs)
    else if c == '\\' then
      match cs with
      | [] => none
      | e :: cs2 =>
        if e == '"' then (parseStringBody fuel cs2).map (fun (a, r) => ('"' :: a, r))
        else if e == '\\' then (parseStringBody fuel cs2).map (fun (a, r) => ('\\' :: a, r))
        else if e == '/' then (parseStringBody fuel cs2).map (fun (a, r) => ('/' :: a, r))
        else if e == 'n' then (parseStringBody fuel cs2).map (fun (a, r) => ('\n' :: a, r))
        else if e == 't' then (parseStringBody fuel cs2).map (fun (a, r) => ('\t' :: a, r))
        else if e == 'r' then (parseStringBody fuel cs2).map (fun (a, r) => ('\r' :: a, r))
        else if e == 'b' then (parseStringBody fuel cs2).map (fun (a, r) => (Char.ofNat 8 :: a, r))
        else if e == 'f' then (parseStringBody fuel cs2).map (fun (a, r) => (Char.ofNat 12 :: a, r))
        else if e == 'u' then
          match cs2 with
          | h1 :: h2 :: h3 :: h4 :: cs3 =>
            match hexVal h1, hexVal h2, hexVal h3, hexVal h4 with
            | some a, some b, some c3, some d4 =>
              (parseStringBody fuel cs3).map
                (fun (acc, r) => (Char.ofNat (((a * 16 + b) * 16 + c3) * 16 + d4) :: acc, r))
            | _, _, _, _ => none
          | _ => none
        else none
    else (parseStringBody fuel cs).map (fun (a, r) => (c :: a, r))

/-- Consume a run of decimal digits, accumulating their value. -/
def digitsVal (acc : Nat) : List Char → Nat × List Char
  | [] => (acc, [])
  | c :: cs => if c.isDigit then digitsVal (acc * 10 + (c.toNat - 48)) cs else (acc, c :: cs)

mutual

/-- Recursive-descent JSON value parser (fuel-indexed). -/
def parseJ : Nat → List Char → Option (Json × List Char)
  | 0, _ => none
  | fuel + 1, cs0 =>
    match cs0.dropWhile isWsChar with
    | [] => none
    | c :: rest =>
      if c == 'n' then
        match rest with
        | 'u' :: 'l' :: 'l' :: r => some (Json.null, r)
        | _ => none
      else if c == 't' then
        match rest with
        | 'r' :: 'u' :: 'e' :: r => some (Json.bool true, r)
        | _ => none
      else if c == 'f' then
        match rest with
        | 'a' :: 'l' :: 's' :: 'e' :: r => some (Json.bool false, r)
        | _ => none
      else if c == '"' then
        match parseStringBody (rest.length + 1) rest with
        | some (content, r) => some (Json.str (String.mk content), r)
        | none => none
      else if c == '[' then
        match rest.dropWhile isWsChar with
        | ']' :: r3 => some (Json.arr [], r3)
        | r2 =>
          match parseArrItems fuel r2 with
          | some (elts, r3) => some (Json.arr elts, r3)
          | none => none
      else if c == lbrace then
        match rest.dropWhile isWsChar with
        | [] => none
        | d :: r3 =>
          if d == rbrace then some (Json.obj [], r3)
          else
            match parseObjItems fuel (d :: r3) with
            | some (fs, r4) => some (Json.obj fs, r4)
            | none => none
      else if c == '-' then
        match rest with
        | d :: _ =>
          if d.isDigit then
            match digitsVal 0 rest with
            | (n, r) => some (Json.num (-(Int.ofNat n)), r)
          else none
        | [] => none
      else if c.isDigit then
        match digitsVal 0 (c :: rest) with
        | (n, r) => some (Json.num (Int.ofNat n), r)
      else none

/-- Parse one-or-more comma-separated array elements up to `]`. -/
def parseArrItems : Nat → List Char → Option (List Json × List Char)
  | 0, _ => none
  | fuel + 1, cs =>
    match parseJ fuel cs with
    | none => none
    | some (v, r) =>
      match r.dropWhile isWsChar with
      | ',' :: r3 =>
        match parseArrItems fuel r3 with
        | some (vs, r4) => some (v :: vs, r4)
        | none => none
      | ']' :: r3 => some ([v], r3)
      | _ => none

/-- Parse one-or-more comma-separated `"key": value` pairs up to `}`. -/
def parseObjItems : Nat → List Char → Option (List (String × Json) × List Char)
  | 0, _ => none
  | fuel + 1, cs =>
    match cs.dropWhile isWsChar with
    | [] => none
    | q :: r0 =>
      if q == '"' then
        match parseStringBody (r0.length + 1) r0 with
        | some (key, r1) =>
          match r1.dropWhile isWsChar with
          | ':' :: r3 =>
            match parseJ fuel r3 with
            | some (v, r4) =>
              match r4.dropWhile isWsChar with
              | [] => none
              | d :: r6 =>
                if d == ',' then
                  match parseObjItems fuel r6 with
                  | some (fs, r7) => some ((String.mk key, v) :: fs, r7)
                  | none => none
                else if d == rbrace then some ([(String.mk key, v)], r6)
                else none
            | none => none
          | _ => none
        | none => none
      else none

end

/-- The model of `JSON.parse(line)`: `none` is a thrown `SyntaxError`.
Surrounding whitespace is allowed; trailing garbage is not. -/
def jsonParse (s : String) : Option Json :=
  match parseJ (2 * s.length + 8) s.toList with
  | some (v, r) => if (r.dropWhile isWsChar).isEmpty then some v else none
  | none => none


/-! ## FTS5 tokenization and MATCH semantics

The virtual table is declared with `tokenize='porter unicode61
remove_diacritics 2'`: text is split on non-alphanumeric characters,
case-folded, and each token is stemmed.  The stemmer is external
(SQLite's Porter implementation), so it is a parameter `stem`;
diacritic removal is not modelled (the repository's data is ASCII). -/

/-- Characters that the unicode61 tokenizer keeps inside a token
(modelled with the ASCII alphanumeric set). -/
def isTokenChar (c : Char) : Bool := c.isAlphanum

/-- Tokenize a piece of text: case-fold, split into alphanumeric runs and
stem each run.  Tokens are kept as character lists. -/
def tokenize (stem : String → String) (s : String) : List (List Char) :=
  (wordsBy isTokenChar (s.toList.map Char.toLower)).map
    (fun w => (stem (String.mk w)).toList)

/-- Does the phrase (list of tokens, the last one a prefix token because of
the trailing `*`) match at the head of the token list?  An empty phrase —
a quoted string that tokenizes to nothing, e.g. `"!!!"` — matches
nothing. -/
def phrasePrefixAt : List (List Char) → List (List Char) → Bool
  | [], _ => false
  | _ :: _, [] => false
  | [t], u :: _ => isPrefixList t u
  | t :: t2 :: ts, u :: us => t == u && phrasePrefixAt (t2 :: ts) us

/-- FTS5 matching of the prefix phrase `"t1 … tn"*` within one column's
token list: the phrase may start at any position. -/
def phrasePrefixMatch (ph : List (List Char)) : List (List Char) → Bool
  | [] => phrasePrefixAt ph []
  | u :: us => phrasePrefixAt ph (u :: us) || phrasePrefixMatch ph us

/-! ## The store (`DocumentationDB`, src/unnamed/part_001)

The SQL schema of `createTables` becomes the `Db` record: one list per
table, in rowid (= insertion) order, plus the AUTOINCREMENT counters.
The `documentation_fts` virtual table stores the values inserted by the
`documentation_ai` trigger. -/

/-- A row of the `documentation` table.  `created_at`/`updated_at` are
`DATETIME DEFAULT CURRENT_TIMESTAMP` columns, modelled as an opaque
constant string — no claim observes time. -/
structure DocRow where
  id : Nat
  «crate» : String
  version : String
  title : String
  content : String
  category : String
  framework : String
  created_at : String
  updated_at : String
deriving DecidableEq, Repr

/-- A row of the `tags` table. -/
structure TagRow where
  id : Nat
  doc_id : Nat
  tag : String
deriving DecidableEq, Repr

/-- A row of the `examples` table (`description` is never inserted and
stays NULL; it is omitted). -/
structure ExampleRow where
  id : Nat
  doc_id : Nat
  code : String
deriving DecidableEq, Repr

/-- A row of the `patterns` table. -/
structure PatternRow where
  id : Nat
  name : String
  description : String
  code_template : String
  framework : String
  category : String
deriving DecidableEq, Repr

/-- A row of the `error_solutions` table (`example_fix` and `framework`
are nullable). -/
structure ErrRow where
  id : Nat
  error_pattern : String
  solution : String
  example_fix : Option String
  framework : Option String
deriving DecidableEq, Repr

/-- A row of the `documentation_fts` virtual table, as populated by the
`documentation_ai` trigger: the four text columns plus the
`GROUP_CONCAT` aggregates of the child tables (NULL = `none`). -/
structure FtsRow where
  rowid : Nat
  title : String
  content : String
  category : String
  framework : String
  tags : Option String
  examples : Option String
deriving DecidableEq, Repr

/-- The whole SQLite database. -/
structure Db where
  documentation : List DocRow
  tags : List TagRow
  examples : List ExampleRow
  patterns : List PatternRow
  error_solutions : List ErrRow
  fts : List FtsRow
  nextDocId : Nat
  nextTagId : Nat
  nextExampleId : Nat
  nextPatternId : Nat
  nextErrId : Nat
deriving DecidableEq, Repr

/-- The freshly created database (`initialize` deletes any existing file
and runs `createTables`). -/
def Db.emptyDb : Db :=
  { documentation := [], tags := [], examples := [], patterns := [],
    error_solutions := [], fts := [], nextDocId := 1, nextTagId := 1,
    nextExampleId := 1, nextPatternId := 1, nextErrId := 1 }

/-- The in-memory `DocItem` shape (src/unnamed/part_000): what
`addDocument` consumes and `searchDocs` produces. -/
structure DocItem where
  id : Nat
  «crate» : String
  version : String
  title : String
  content : String
  category : String
  framework : String
  tags : List String
  examples : List String
  created_at : String
  updated_at : String
deriving DecidableEq, Repr

/-- The SQL `CURRENT_TIMESTAMP` value, opaque to this development. -/
def currentTimestamp : String := "CURRENT_TIMESTAMP"

/-- `GROUP_CONCAT(x, sep)` over the listed values: NULL on an empty set,
otherwise the values joined by `sep`. -/
def groupConcatOpt (sep : Char) (l : List String) : Option String :=
  if l.isEmpty then none else some (String.mk (joinWithChar sep (l.map String.toList)))

/-- `INSERT INTO tags (doc_id, tag)` rows for a document, numbering ids
from `n`. -/
def numberTags (n docId : Nat) : List String → List TagRow
  | [] => []
  | t :: ts => { id := n, doc_id := docId, tag := t } :: numberTags (n + 1) docId ts

/-- `INSERT INTO examples (doc_id, code)` rows, numbering ids from `n`. -/
def numberExamples (n docId : Nat) : List String → List ExampleRow
  | [] => []
  | e :: es => { id := n, doc_id := docId, code := e } :: numberExamples (n + 1) docId es

/-- The example filter in `addDocument`: `if (example && example.trim())` —
the example is kept when it is truthy and trims to a truthy string. -/
def isNonBlank (e : String) : Bool := !(e == "") && !(strTrim e == "")

/-- `DocumentationDB.initialize` (part_001 lines 16-43): deletes the
existing database file and recreates the schema.  Any prior state is
discarded by design. -/
def initDb (_ : Option Db) : Option Db := some Db.emptyDb

/-- `DocumentationDB.addDocument` (part_001 lines 120-146).

Order of effects, exactly as in the source: the `documentation` INSERT
fires the `documentation_ai` AFTER INSERT trigger, whose
`GROUP_CONCAT` subqueries run against the child tables *as they stand
at that moment* — before the tag and example INSERTs below it; then the
tag rows, then the non-blank example rows (`Array.isArray` always holds
for the typed `examples` field).  Returns `result.lastID`. -/
def addDocument (doc : DocItem) : Option Db → Except String (Nat × Option Db)
  | none => .error "Database not initialized"
  | some db =>
    let docId := db.nextDocId
    let dr : DocRow :=
      { id := docId, «crate» := doc.crate, version := doc.version,
        title := doc.title, content := doc.content, category := doc.category,
        framework := doc.framework, created_at := currentTimestamp,
        updated_at := currentTimestamp }
    let f : FtsRow :=
      { rowid := docId, title := doc.title, content := doc.content,
        category := doc.category, framework := doc.framework,
        tags := groupConcatOpt ' '
          (((db.tags.filter (fun t => t.doc_id == docId)).map TagRow.tag)),
        examples := groupConcatOpt ' '
          (((db.examples.filter (fun e => e.doc_id == docId)).map ExampleRow.code)) }
    let keptExamples := doc.examples.filter isNonBlank
    .ok (docId, some
      { db with
        documentation := db.documentation ++ [dr],
        fts := db.fts ++ [f],
        tags := db.tags ++ numberTags db.nextTagId docId doc.tags,
        examples := db.examples ++ numberExamples db.nextExampleId docId keptExamples,
        nextDocId := docId + 1,
        nextTagId := db.nextTagId + doc.tags.length,
        nextExampleId := db.nextExampleId + keptExamples.length })

/-- One FTS5 query term `"term"*` matched against one `documentation_fts`
row: the phrase must match inside a single column; NULL columns
contribute no tokens. -/
def termMatch (stem : String → String) (t : String) (f : FtsRow) : Bool :=
  [f.title, f.content, f.category, f.framework,
   f.tags.getD "", f.examples.getD ""].any
    (fun col => phrasePrefixMatch (tokenize stem t) (tokenize stem col))

/-- The `WHERE documentation_fts MATCH ?` stage for the query string built
by `searchDocs`: `query.split(' ')` pieces, each quoted with a trailing
`*` and OR-joined — a row matches when any piece matches. -/
def matchStage (stem : String → String) (query : String) (db : Db) : List FtsRow :=
  db.fts.filter (fun f => (jsSplitChar ' ' query).any (fun t => termMatch stem t f))

/-- The `JOIN documentation d ON fts.rowid = d.id` stage. -/
def joinStage (db : Db) (ms : List FtsRow) : List DocRow :=
  ms.flatMap (fun f => db.documentation.filter (fun d => d.id == f.rowid))

/-- The `AND d.framework = ?` filter, present only when the `framework`
argument is truthy (`framework ? 'AND d.framework = ?' : ''`). -/
def frameworkStage (framework : Option String) (joined : List DocRow) : List DocRow :=
  match framework with
  | some fw => if fw == "" then joined else joined.filter (fun d => d.framework == fw)
  | none => joined

/-- `GROUP BY d.id`, with the already-emitted ids accumulated in `seen`:
one output row per document id, first occurrence kept (rows of a group
carry identical selected values). -/
def dedupByKeyAux (key : DocRow → Nat) (seen : List Nat) : List DocRow → List DocRow
  | [] => []
  | a :: as =>
    if seen.contains (key a) then dedupByKeyAux key seen as
    else a :: dedupByKeyAux key (key a :: seen) as

/-- `GROUP BY d.id`: one output row per document id. -/
def dedupByKey (key : DocRow → Nat) (l : List DocRow) : List DocRow :=
  dedupByKeyAux key [] l

/-- SQL `DISTINCT` over aggregated values (first occurrence kept; SQLite
leaves the order unspecified). -/
def distinctAux (seen : List String) : List String → List String
  | [] => []
  | a :: as =>
    if seen.contains a then distinctAux seen as
    else a :: distinctAux (a :: seen) as

/-- SQL `DISTINCT` over a list of values. -/
def sqlDistinct (l : List String) : List String := distinctAux [] l

/-- The row-to-`DocItem` mapping of `searchDocs`: the aggregated
`GROUP_CONCAT(DISTINCT …)` strings are re-split on `','`
(`row.tags ? row.tags.split(',') : []` — note that the empty string is
falsy). `DISTINCT` ordering is unspecified in SQLite; modelled as
first-occurrence deduplication. -/
def splitAgg : Option String → List String
  | none => []
  | some s => if s == "" then [] else jsSplitChar ',' s

/-- Build the output `DocItem` for a grouped document row. -/
def toDocItem (db : Db) (dr : DocRow) : DocItem :=
  { id := dr.id, «crate» := dr.crate, version := dr.version, title := dr.title,
    content := dr.content, category := dr.category, framework := dr.framework,
    tags := splitAgg (groupConcatOpt ','
      (sqlDistinct ((db.tags.filter (fun t => t.doc_id == dr.id)).map TagRow.tag))),
    examples := splitAgg (groupConcatOpt ','
      (sqlDistinct ((db.examples.filter (fun e => e.doc_id == dr.id)).map ExampleRow.code))),
    created_at := dr.created_at, updated_at := dr.updated_at }

/-- `DocumentationDB.searchDocs` (part_001 lines 147-191).

The two debugging SELECTs (FTS count, sample rows) have no effect and are
omitted.  `ORDER BY rank` (bm25) is not modelled: rows keep table order;
every verified claim is order-insensitive. -/
def searchDocs (stem : String → String) (query : String)
    (framework : Option String) : Option Db → Except String (List DocItem)
  | none => .error "Database not initialized"
  | some db =>
    .ok ((dedupByKey DocRow.id
      (frameworkStage framework (joinStage db (matchStage stem query db)))).map
        (toDocItem db))

/-- `DocumentationDB.addPattern` (part_001 lines 192-204). -/
def addPattern (p : PatternRow) : Option Db → Except String (Option Db)
  | none => .error "Database not initialized"
  | some db =>
    .ok (some { db with
      patterns := db.patterns ++
        [{ id := db.nextPatternId, name := p.name, description := p.description,
           code_template := p.code_template, framework := p.framework,
           category := p.category }],
      nextPatternId := db.nextPatternId + 1 })

/-- `DocumentationDB.addErrorSolution` (part_001 lines 205-217). -/
def addErrorSolution (s : ErrRow) : Option Db → Except String (Option Db)
  | none => .error "Database not initialized"
  | some db =>
    .ok (some { db with
      error_solutions := db.error_solutions ++
        [{ id := db.nextErrId, error_pattern := s.error_pattern,
           solution := s.solution, example_fix := s.example_fix,
           framework := s.framework }],
      nextErrId := db.nextErrId + 1 })

/-- `DocumentationDB.findErrorSolutions` (part_001 lines 218-229):
`SELECT * FROM error_solutions WHERE error_pattern LIKE '%' || e || '%'`.
No ORDER BY: rows come back in table (= insertion) order. -/
def findErrorSolutions (e : String) : Option Db → Except String (List ErrRow)
  | none => .error "Database not initialized"
  | some db =>
    .ok (db.error_solutions.filter
      (fun r => likeMatch ('%' :: (e.toList ++ ['%'])) r.error_pattern.toList))

/-- `DocumentationDB.getPatternsByFramework` (part_001 lines 230-241). -/
def getPatternsByFramework (fw : String) : Option Db → Except String (List PatternRow)
  | none => .error "Database not initialized"
  | some db => .ok (db.patterns.filter (fun p => p.framework == fw))

/-! ## Store operation sequences (reachable states) -/

/-- One state-changing store operation. -/
inductive StoreOp where
  | doc (d : DocItem)
  | pat (p : PatternRow)
  | err (s : ErrRow)

/-- Apply one operation to an initialized database. -/
def applyOp (db : Db) : StoreOp → Db
  | .doc d =>
    match addDocument d (some db) with
    | .ok (_, some db2) => db2
    | _ => db
  | .pat p =>
    match addPattern p (some db) with
    | .ok (some db2) => db2
    | _ => db
  | .err s =>
    match addErrorSolution s (some db) with
    | .ok (some db2) => db2
    | _ => db

/-- The database reached by running `ops` after `initialize()`. -/
def buildDb (ops : List StoreOp) : Db := ops.foldl applyOp Db.emptyDb

/-! ## Protocol layer (src/unnamed/part_004 and src/src/index.ts) -/

/-- `ErrorCodes.ParseError` (types.ts). -/
def codeParseError : Int := -32700

/-- `ErrorCodes.InvalidRequest` (types.ts). -/
def codeInvalidRequest : Int := -32600

/-- `ErrorCodes.MethodNotFound` (types.ts). -/
def codeMethodNotFound : Int := -32601

/-- `ErrorCodes.InvalidParams` (types.ts). -/
def codeInvalidParams : Int := -32602

/-- `ErrorCodes.InternalError` (types.ts). -/
def codeInternalError : Int := -32603

/-- A thrown JS value inside a handler: an `McpError` (carrying a numeric
code), or any other `Error` (carrying only a message). -/
inductive HThrow where
  | mcp (code : Int) (msg : String)
  | other (msg : String)

/-- `error.message` of a thrown value (`McpError extends Error`). -/
def HThrow.message : HThrow → String
  | .mcp _ m => m
  | .other m => m

/-- A JSON-RPC reply as built by `BaseServer.handleRequest`: the echoed
`id` (`none` when `request.id` is `undefined` — `JSON.stringify` then
omits the key), and either a `result` or an `{code, message}` error. -/
structure McpResponse where
  id : Option Json
  result : Option Json
  error : Option (Int × String)

/-- Outcomes of the out-of-core collaborator calls reached from
`callTool` (axios/jsdom/octokit fetchers, the filesystem): the spec
declares them external, so they are parameters of the model.  The two
`docFetcher` operations may mutate the store (they insert fetched
documents) before succeeding or throwing. -/
structure ExtWorld where
  fetchManualPayload : Json
  searchManualPayload : Json → Json
  suggestPayload : Json → Except HThrow Json
  analyzeCargo : Json → Except HThrow Json
  fetchTauri : Option Db → Option Db × Except HThrow Unit
  fetchLeptos : Option Db → Option Db × Except HThrow Unit

/-- A `{ content: [{ type: 'text', text: m }] }` tool payload. -/
def textPayload (m : String) : Json :=
  Json.obj [("content", Json.arr [Json.obj [("type", Json.str "text"), ("text", Json.str m)]])]

/-- The payload produced by `callTool`'s catch clause:
`{ content: [{type:'text', text: 'Error: ' + message}], isError: true }`. -/
def toolErrorPayload (m : String) : Json :=
  Json.obj [("content", Json.arr [Json.obj [("type", Json.str "text"),
    ("text", Json.str ("Error: " ++ m))]]), ("isError", Json.bool true)]

/-- One tool descriptor of `getTools` (index.ts lines 54-139). -/
def toolDescr (name description : String) (schema : Json) : Json :=
  Json.obj [("name", Json.str name), ("description", Json.str description),
    ("inputSchema", schema)]

/-- The fixed catalog returned by `getTools` (index.ts lines 54-139). -/
def toolCatalog : List Json :=
  [toolDescr "fetch_rust_manual" "Fetch latest stable Rust manual"
     (Json.obj [("type", Json.str "object")]),
   toolDescr "analyze_cargo_toml" "Analyze project dependencies from Cargo.toml"
     (Json.obj [("type", Json.str "object"),
       ("properties", Json.obj [("path", Json.obj [("type", Json.str "string")])]),
       ("required", Json.arr [Json.str "path"])]),
   toolDescr "suggest_improvements" "Suggest documentation improvements based on code context"
     (Json.obj [("type", Json.str "object"),
       ("properties", Json.obj [("code_snippet", Json.obj [("type", Json.str "string")])])]),
   toolDescr "search_rust_manual" "Search the Rust manual for a specific query"
     (Json.obj [("type", Json.str "object"),
       ("properties", Json.obj [("query", Json.obj [("type", Json.str "string")])]),
       ("required", Json.arr [Json.str "query"])]),
   toolDescr "fetch_tauri_docs" "Fetch Tauri documentation"
     (Json.obj [("type", Json.str "object")]),
   toolDescr "fetch_leptos_docs" "Fetch Leptos documentation"
     (Json.obj [("type", Json.str "object")]),
   toolDescr "search_offline_docs" "Search the offline documentation database"
     (Json.obj [("type", Json.str "object"),
       ("properties", Json.obj [("query", Json.obj [("type", Json.str "string")]),
         ("framework", Json.obj [("type", Json.str "string"),
           ("enum", Json.arr [Json.str "leptos", Json.str "tauri"])])]),
       ("required", Json.arr [Json.str "query"])]),
   toolDescr "get_common_patterns" "Get common code patterns for a framework"
     (Json.obj [("type", Json.str "object"),
       ("properties", Json.obj [("framework", Json.obj [("type", Json.str "string"),
         ("enum", Json.arr [Json.str "leptos", Json.str "tauri"])])]),
       ("required", Json.arr [Json.str "framework"])]),
   toolDescr "find_error_solution" "Find solution for a common error"
     (Json.obj [("type", Json.str "object"),
       ("properties", Json.obj [("error", Json.obj [("type", Json.str "string")]),
         ("framework", Json.obj [("type", Json.str "string"),
           ("enum", Json.arr [Json.str "leptos", Json.str "tauri"])])]),
       ("required", Json.arr [Json.str "error"])])]

/-- `formatSearchResults` (index.ts lines 282-298). -/
def formatSearchResults (results : List DocItem) : String :=
  if results.length == 0 then "No matching documentation found."
  else
    String.intercalate "\n---\n" (results.map (fun r =>
      let base := "Title: " ++ r.title ++ "\n" ++ "Category: " ++ r.category ++ "\n" ++
        "Framework: " ++ r.framework ++ "\n" ++ "Content:\n" ++ r.content ++ "\n"
      if r.examples.length > 0 then
        base ++ "\nExamples:\n" ++
          String.join (r.examples.enum.map (fun p => toString (p.1 + 1) ++ ". " ++ p.2 ++ "\n"))
      else base))

/-- `formatPatterns` (index.ts lines 300-312). -/
def formatPatterns (patterns : List PatternRow) : String :=
  if patterns.length == 0 then "No patterns found."
  else
    String.intercalate "\n---\n" (patterns.map (fun p =>
      "Pattern: " ++ p.name ++ "\n" ++ "Description: " ++ p.description ++ "\n" ++
        "Category: " ++ p.category ++ "\n" ++ "Template:\n```rust\n" ++
        p.code_template ++ "\n```"))

/-- `formatErrorSolutions` (index.ts lines 314-327); `solution.example_fix`
is appended only when truthy (non-NULL and non-empty). -/
def formatErrorSolutions (solutions : List ErrRow) : String :=
  if solutions.length == 0 then "No solutions found for this error."
  else
    String.intercalate "\n---\n" (solutions.map (fun s =>
      let base := "Error: " ++ s.error_pattern ++ "\n" ++ "Solution: " ++ s.solution ++ "\n"
      match s.example_fix with
      | some fix => if fix == "" then base
          else base ++ "Example Fix:\n```rust\n" ++ fix ++ "\n```"
      | none => base))

/-- The body of `callTool`'s switch (index.ts lines 141-221), before the
surrounding try/catch: either a returned payload or a thrown value, plus
the store state (the fetch tools insert into the store through the
external collaborators).  JS `switch` uses strict equality, so a
non-string `name` reaches the default case. -/
def callToolBody (stem : String → String) (ext : ExtWorld) (db : Option Db)
    (name : Json) (args : Json) : Except HThrow Json × Option Db :=
  if name.isStrEq "fetch_rust_manual" then
    -- fetchManual catches its own axios errors and always returns a payload
    (.ok ext.fetchManualPayload, db)
  else if name.isStrEq "analyze_cargo_toml" then
    if jsTruthyOpt (args.getField "path") then
      (ext.analyzeCargo ((args.getField "path").getD Json.null), db)
    else (.error (.mcp codeInvalidParams "Path parameter required"), db)
  else if name.isStrEq "suggest_improvements" then
    if jsTruthyOpt (args.getField "code_snippet") then
      (ext.suggestPayload ((args.getField "code_snippet").getD Json.null), db)
    else (.error (.mcp codeInvalidParams "Code snippet required"), db)
  else if name.isStrEq "search_rust_manual" then
    if jsTruthyOpt (args.getField "query") then
      -- searchManual catches internally and always returns a payload
      (.ok (ext.searchManualPayload ((args.getField "query").getD Json.null)), db)
    else (.error (.mcp codeInvalidParams "Query parameter required"), db)
  else if name.isStrEq "fetch_tauri_docs" then
    match ext.fetchTauri db with
    | (db2, .ok _) =>
      (.ok (textPayload "Tauri documentation fetched and stored successfully"), db2)
    | (db2, .error e) => (.error e, db2)
  else if name.isStrEq "fetch_leptos_docs" then
    match ext.fetchLeptos db with
    | (db2, .ok _) =>
      (.ok (textPayload "Leptos documentation fetched and stored successfully"), db2)
    | (db2, .error e) => (.error e, db2)
  else if name.isStrEq "search_offline_docs" then
    if jsTruthyOpt (args.getField "query") then
      match args.getField "query" with
      | some (Json.str q) =>
        -- searchDocs(args.query, args.framework): the framework value's JS
        -- truthiness decides the filter; a truthy non-string is bound with
        -- SQLite TEXT affinity (coerced to its text form)
        let fw : Option String :=
          match args.getField "framework" with
          | none => none
          | some v => if jsTruthy v then some (jsDisplay v) else none
        match searchDocs stem q fw db with
        | .ok results => (.ok (textPayload (formatSearchResults results)), db)
        | .error m => (.error (.other m), db)
      | _ =>
        -- a truthy non-string query: query.split(' ') throws a TypeError
        (.error (.other "query.split is not a function"), db)
    else (.error (.mcp codeInvalidParams "Query parameter required"), db)
  else if name.isStrEq "get_common_patterns" then
    if jsTruthyOpt (args.getField "framework") then
      match getPatternsByFramework (jsDisplayOpt (args.getField "framework")) db with
      | .ok patterns => (.ok (textPayload (formatPatterns patterns)), db)
      | .error m => (.error (.other m), db)
    else (.error (.mcp codeInvalidParams "Framework parameter required"), db)
  else if name.isStrEq "find_error_solution" then
    if jsTruthyOpt (args.getField "error") then
      -- findErrorSolutions builds `%${error}%`: template-literal coercion
      match findErrorSolutions (jsDisplayOpt (args.getField "error")) db with
      | .ok solutions => (.ok (textPayload (formatErrorSolutions solutions)), db)
      | .error m => (.error (.other m), db)
    else (.error (.mcp codeInvalidParams "Error parameter required"), db)
  else (.error (.mcp codeMethodNotFound "Invalid tool"), db)

/-- `callTool` (index.ts lines 141-228): the switch wrapped in the
try/catch whose catch converts *every* thrown value — `McpError`
included — into a successful `isError: true` payload.  State mutations
made before a throw persist. -/
def callToolFn (stem : String → String) (ext : ExtWorld) (db : Option Db)
    (name : Json) (args : Json) : Json × Option Db :=
  match callToolBody stem ext db name args with
  | (.ok j, db2) => (j, db2)
  | (.error e, db2) => (toolErrorPayload e.message, db2)

/-- The handlers registered on the `BaseServer` map: `list_tools` and
`call_tool` in `setupHandlers` (index.ts lines 40-52), then
`initialize` and `shutdown` in `BaseServer.start` (part_004 lines
57-67) — all four are in the map by the time the line loop runs. -/
inductive HandlerTag where
  | hListTools
  | hCallTool
  | hInit
  | hShutdown

/-- `this.requestHandlers.get(request.method)` over the four registered
method names. -/
def findHandler (m : String) : Option HandlerTag :=
  if m == "list_tools" then some .hListTools
  else if m == "call_tool" then some .hCallTool
  else if m == "initialize" then some .hInit
  else if m == "shutdown" then some .hShutdown
  else none

/-- The result of the built-in `initialize` handler.
`(this.serverInfo as any).protocolVersion` is `undefined`, and
`JSON.stringify` drops `undefined`-valued keys, so only `capabilities`
and `serverInfo` survive. -/
def initResultJson : Json :=
  Json.obj [("capabilities", Json.obj [("tools", Json.obj [])]),
    ("serverInfo", Json.obj [("name", Json.str "rust-doc-mcp"),
      ("version", Json.str "0.1.0")])]

/-- The `call_tool` handler registered by `setupHandlers` (index.ts lines
46-51): `if (!params.name) throw new McpError(InvalidParams, 'Tool name
is required'); return await this.callTool(params.name, params.arguments
|| {})`.  `params` may be `undefined`/`null`, in which case the member
access itself throws. -/
def runCallToolHandler (stem : String → String) (ext : ExtWorld) (db : Option Db)
    (params : Option Json) : Except HThrow Json × Option Db :=
  match params with
  | none => (.error (.other "Cannot read properties of undefined (reading 'name')"), db)
  | some Json.null => (.error (.other "Cannot read properties of null (reading 'name')"), db)
  | some p =>
    let nameV := p.getField "name"
    if jsTruthyOpt nameV then
      let args : Json :=
        match p.getField "arguments" with
        | some a => if jsTruthy a then a else Json.obj []
        | none => Json.obj []
      let out := callToolFn stem ext db (nameV.getD Json.null) args
      (.ok out.1, out.2)
    else (.error (.mcp codeInvalidParams "Tool name is required"), db)

/-- Dispatch to the handler body for one registered method.  `shutdown`
additionally schedules `process.exit(0)` after 100ms — a process-level
side effect outside this model. -/
def runHandler (stem : String → String) (ext : ExtWorld) (db : Option Db) :
    HandlerTag → Option Json → Except HThrow Json × Option Db
  | .hListTools, _ => (.ok (Json.obj [("tools", Json.arr toolCatalog)]), db)
  | .hCallTool, params => runCallToolHandler stem ext db params
  | .hInit, _ => (.ok initResultJson, db)
  | .hShutdown, _ => (.ok Json.null, db)

/-- `BaseServer.handleRequest` (part_004 lines 14-48).

The outer `Except String` is a JS exception escaping `handleRequest`
itself: that happens only when `request` is `null` — then
`request.method` throws, and the catch clause's `request.id` throws
again, so nothing is returned and the line loop's own catch takes over.
Otherwise the try/catch yields a response: handler success becomes
`result`, a thrown `McpError` becomes its own `{code, message}`, and any
other failure becomes `InternalError` with the failure's message. -/
def handleRequest (stem : String → String) (ext : ExtWorld) (db : Option Db)
    (request : Json) : Except String (McpResponse × Option Db) :=
  match request with
  | Json.null => .error "Cannot read properties of null (reading 'method')"
  | req =>
    let mval := req.getField "method"
    let idv := req.getField "id"
    match mval with
    | some (Json.str m) =>
      match findHandler m with
      | some tag =>
        match runHandler stem ext db tag (req.getField "params") with
        | (.ok r, db2) => .ok ({ id := idv, result := some r, error := none }, db2)
        | (.error (.mcp c msg), db2) =>
          .ok ({ id := idv, result := none, error := some (c, msg) }, db2)
        | (.error (.other msg), db2) =>
          .ok ({ id := idv, result := none, error := some (codeInternalError, msg) }, db2)
      | none =>
        .ok ({ id := idv, result := none
               , error := some (codeMethodNotFound, "Method not found: " ++ m) }, db)
    | _ =>
      .ok ({ id := idv, result := none
             , error := some (codeMethodNotFound, "Method not found: " ++ jsDisplayOpt mval) }, db)

/-- The engine's per-process mutable state: the singleton store handle and
`nextRequestId` (initialized to 1, used for locally generated ids). -/
structure EngineState where
  db : Option Db
  nextRequestId : Nat

/-- The reply emitted when a line cannot be handled: `{jsonrpc, id:
this.nextRequestId++, error: {code: ParseError, message: 'Parse
error'}}` (part_004 lines 74-83). -/
def parseErrorResp (n : Nat) : McpResponse :=
  { id := some (Json.num (Int.ofNat n)), result := none,
    error := some (codeParseError, "Parse error") }

/-- The `rl.on('line', …)` callback of `BaseServer.start` (part_004 lines
69-84): parse the line, handle the request, print the response; any
exception — a `JSON.parse` failure or one escaping `handleRequest` —
produces a ParseError reply under a locally generated id from the
monotonically increasing counter. -/
def onLine (stem : String → String) (ext : ExtWorld) (st : EngineState)
    (line : String) : EngineState × McpResponse :=
  match jsonParse line with
  | some req =>
    match handleRequest stem ext st.db req with
    | .ok (resp, db2) => ({ st with db := db2 }, resp)
    | .error _ =>
      ({ st with nextRequestId := st.nextRequestId + 1 }, parseErrorResp st.nextRequestId)
  | none =>
    ({ st with nextRequestId := st.nextRequestId + 1 }, parseErrorResp st.nextRequestId)

/-- The identity stemmer, used to instantiate the tokenizer parameter at
concrete witnesses. -/
def stemId : String → String := fun s => s

/-- A trivial external world for concrete witnesses (no claim exercises
an external collaborator). -/
def extUnit : ExtWorld :=
  { fetchManualPayload := Json.null,
    searchManualPayload := fun _ => Json.null,
    suggestPayload := fun _ => .ok Json.null,
    analyzeCargo := fun _ => .ok Json.null,
    fetchTauri := fun db => (db, .ok ()),
    fetchLeptos := fun db => (db, .ok ()) }

/-! ## Derived definitions used by the verification -/

/-- The `AND d.framework = ?` condition as a predicate on a joined row
(the filter is present only for a truthy `framework` argument). -/
def fwPass (fw : Option String) (dr : DocRow) : Bool :=
  match fw with
  | some s => if s == "" then true else dr.framework == s
  | none => true

/-- The result list of `searchDocs` on an initialized store (the payload
inside `Except.ok`). -/
def searchResult (stem : String → String) (q : String) (fw : Option String) (db : Db) :
    List DocItem :=
  (dedupByKey DocRow.id (frameworkStage fw (joinStage db (matchStage stem q db)))).map
    (toDocItem db)

/-- Bounds invariant of a database state: every row id / child foreign key
is below the AUTOINCREMENT counter, so a fresh document id has no
pre-existing rows attached. -/
structure DbWf (db : Db) : Prop where
  docs : ∀ dr ∈ db.documentation, dr.id < db.nextDocId
  tagRows : ∀ t ∈ db.tags, t.doc_id < db.nextDocId
  exampleRows : ∀ e ∈ db.examples, e.doc_id < db.nextDocId
  ftsRows : ∀ f ∈ db.fts, f.rowid < db.nextDocId

/-- Full invariant of reachable database states: the bounds, distinct
document ids, and the FTS table mirroring the `documentation` rows with
NULL `tags`/`examples` columns (the trigger fires before any child rows
exist). -/
structure DbInv (db : Db) extends DbWf db : Prop where
  docNodup : (db.documentation.map DocRow.id).Nodup
  ftsNodup : (db.fts.map FtsRow.rowid).Nodup
  ftsChildless : ∀ f ∈ db.fts, f.tags = none ∧ f.examples = none
  ftsMirror : ∀ f ∈ db.fts, ∃ dr ∈ db.documentation, dr.id = f.rowid ∧
    dr.title = f.title ∧ dr.content = f.content ∧ dr.category = f.category ∧
    dr.framework = f.framework

/-- The `documentation` row created by `addDocument` for `d`. -/
def newDocRow (db : Db) (d : DocItem) : DocRow :=
  { id := db.nextDocId, «crate» := d.crate, version := d.version, title := d.title,
    content := d.content, category := d.category, framework := d.framework,
    created_at := currentTimestamp, updated_at := currentTimestamp }

/-- The `documentation_fts` row created by the trigger for `d` (child
aggregates computed over the pre-insert child tables). -/
def newFtsRow (db : Db) (d : DocItem) : FtsRow :=
  { rowid := db.nextDocId, title := d.title, content := d.content,
    category := d.category, framework := d.framework,
    tags := groupConcatOpt ' '
      ((db.tags.filter (fun t => t.doc_id == db.nextDocId)).map TagRow.tag),
    examples := groupConcatOpt ' '
      ((db.examples.filter (fun e => e.doc_id == db.nextDocId)).map ExampleRow.code) }

/-- The store state after `addDocument d` succeeds on `db`. -/
def insertedDb (db : Db) (d : DocItem) : Db :=
  { db with
    documentation := db.documentation ++ [newDocRow db d],
    fts := db.fts ++ [newFtsRow db d],
    tags := db.tags ++ numberTags db.nextTagId db.nextDocId d.tags,
    examples := db.examples ++
      numberExamples db.nextExampleId db.nextDocId (d.examples.filter isNonBlank),
    nextDocId := db.nextDocId + 1,
    nextTagId := db.nextTagId + d.tags.length,
    nextExampleId := db.nextExampleId + (d.examples.filter isNonBlank).length }

/-! ### Spec-side definitions (for comparison against the code)

These two definitions follow the words of the specification, not the
source, and exist only to state counterexamples where the code diverges
from those words. -/

/-- The spec's search-term splitting: "query text is split on whitespace
into terms".  (The code splits on the single space character.) -/
def specWhitespaceSplit (q : String) : List String :=
  (wordsBy (fun c => !c.isWhitespace) q.toList).map String.mk

/-- The spec's error-lookup predicate: "case-sensitive substring
containment" of the query inside `error_pattern`.  (SQLite `LIKE` is
ASCII-case-insensitive.) -/
def specContainsCS (hay needle : String) : Bool := isInfixB needle.toList hay.toList

/-! ### Concrete scenario states for counterexamples and witnesses -/

/-- A valid document whose single example contains a comma. -/
def c2doc : DocItem :=
  { id := 0, «crate» := "serde", version := "1", title := "roundtrip",
    content := "xcontent", category := "ycat", framework := "leptos",
    tags := ["t"], examples := ["f(a, b)"], created_at := "", updated_at := "" }

/-- A valid document used for the C2 witness (comma-free children). -/
def c2wdoc : DocItem :=
  { id := 0, «crate» := "tokio", version := "1", title := "hello world",
    content := "some content", category := "api", framework := "leptos",
    tags := ["official", "api"], examples := ["use tokio;", "  "],
    created_at := "", updated_at := "" }

/-- A document whose title is only "alpha". -/
def c3doc : DocItem :=
  { id := 0, «crate» := "c", version := "1", title := "alpha",
    content := "xcontent", category := "ycat", framework := "leptos",
    tags := [], examples := [], created_at := "", updated_at := "" }

/-- The store after inserting `c3doc` into a fresh database. -/
def c3db : Db := buildDb [StoreOp.doc c3doc]

/-- An error-solution row whose pattern is lower-case `abc`. -/
def c4row : ErrRow :=
  { id := 1, error_pattern := "abc", solution := "sol",
    example_fix := none, framework := none }

/-- A store holding only `c4row`. -/
def c4db : Db :=
  { Db.emptyDb with error_solutions := [c4row], nextErrId := 2 }

/-- A leptos document titled "alpha" (for the framework-filter claims). -/
def c5doc : DocItem :=
  { id := 0, «crate» := "c", version := "1", title := "alpha",
    content := "body text", category := "api", framework := "leptos",
    tags := [], examples := [], created_at := "", updated_at := "" }

/-- The store after inserting `c5doc` into a fresh database. -/
def c5db : Db := buildDb [StoreOp.doc c5doc]

/-- A tauri document sharing the title term "alpha" (C5 witness). -/
def c5doc2 : DocItem :=
  { id := 0, «crate» := "c", version := "1", title := "alpha two",
    content := "other text", category := "api", framework := "tauri",
    tags := [], examples := [], created_at := "", updated_at := "" }

/-- A store holding one leptos and one tauri document, both matching the
title term "alpha". -/
def c5db2 : Db := buildDb [StoreOp.doc c5doc, StoreOp.doc c5doc2]

/-- A document whose tag "zebra" appears in no other field (C10 witness). -/
def c10doc : DocItem :=
  { id := 0, «crate» := "c", version := "1", title := "hello",
    content := "world", category := "cat", framework := "leptos",
    tags := ["zebra"], examples := [], created_at := "", updated_at := "" }

/-- The documentation row created for `c10doc`. -/
def c10row : DocRow :=
  { id := 1, «crate» := "c", version := "1", title := "hello",
    content := "world", category := "cat", framework := "leptos",
    created_at := currentTimestamp, updated_at := currentTimestamp }

/-- A concrete document used by several witnesses. -/
def w8doc : DocItem :=
  { id := 0, «crate» := "c", version := "1", title := "t",
    content := "c", category := "k", framework := "leptos",
    tags := [], examples := [], created_at := "", updated_at := "" }

/-- A concrete pattern used by the C8 witness. -/
def w8pat : PatternRow :=
  { id := 0, name := "n", description := "d", code_template := "x",
    framework := "leptos", category := "k" }

/-- A concrete error solution used by the C8 witness. -/
def w8err : ErrRow :=
  { id := 0, error_pattern := "e", solution := "s",
    example_fix := none, framework := none }

/-! ## Lemmas about `LIKE` -/

/-- A lone `%` pattern matches every string. -/
theorem likeMatch_pct_true : ∀ s, likeMatch ['%'] s = true := by
  intro s
  induction s with
  | nil => simp [likeMatch]
  | cons c cs ih => simp [likeMatch, ih]

/-- A wildcard-free literal followed by `%` matches exactly the strings
with that literal as an ASCII-case-insensitive prefix. -/
theorem likeMatch_lit_pct (e : List Char) (hW : ∀ c ∈ e, ¬ c = '%' ∧ ¬ c = '_') :
    ∀ s, likeMatch (e ++ ['%']) s = isPrefixList (e.map lowAscii) (s.map lowAscii) := by
  induction e with
  | nil => intro s; simp [isPrefixList, likeMatch_pct_true s]
  | cons a as ih =>
    intro s
    have ha := hW a (List.mem_cons_self a as)
    have ih2 := ih (fun c hc => hW c (List.mem_cons_of_mem a hc))
    cases s with
    | nil => simp [likeMatch, ha.1, isPrefixList]
    | cons c cs => simp [likeMatch, ha.1, ha.2, isPrefixList, ih2 cs]

/-- `LIKE '%e%'` for a wildcard-free `e` is exactly ASCII-case-insensitive
substring containment. -/
theorem likeMatch_infix (e : List Char) (hW : ∀ c ∈ e, ¬ c = '%' ∧ ¬ c = '_') :
    ∀ s, likeMatch ('%' :: (e ++ ['%'])) s = isInfixB (e.map lowAscii) (s.map lowAscii) := by
  intro s
  induction s with
  | nil => simp [likeMatch, isInfixB, likeMatch_lit_pct e hW]
  | cons c cs ih => simp [likeMatch, isInfixB, likeMatch_lit_pct e hW, ih]

/-! ## Lemmas about the search pipeline -/

/-- `searchDocs` on an initialized store succeeds with `searchResult`. -/
theorem searchDocs_eq (stem : String → String) (q : String) (fw : Option String) (db : Db) :
    searchDocs stem q fw (some db) = .ok (searchResult stem q fw db) := rfl

/-- Rows surviving `GROUP BY` come from the input. -/
theorem mem_dedupByKeyAux_imp {key : DocRow → Nat} {seen : List Nat} {l : List DocRow}
    {a : DocRow} (h : a ∈ dedupByKeyAux key seen l) : a ∈ l := by
  induction l generalizing seen with
  | nil => simp [dedupByKeyAux] at h
  | cons b bs ih =>
    simp only [dedupByKeyAux] at h
    split at h
    · exact List.mem_cons_of_mem b (ih h)
    · rcases List.mem_cons.mp h with h1 | h2
      · exact h1 ▸ List.mem_cons_self b bs
      · exact List.mem_cons_of_mem b (ih h2)

/-- Every key present in the input survives `GROUP BY` on some row. -/
theorem exists_mem_dedupByKeyAux {key : DocRow → Nat} {l : List DocRow} {a : DocRow}
    (ha : a ∈ l) : ∀ seen : List Nat, ¬ key a ∈ seen →
    ∃ b ∈ dedupByKeyAux key seen l, key b = key a := by
  induction l with
  | nil => simp at ha
  | cons c cs ih =>
    intro seen hs
    rcases List.mem_cons.mp ha with h1 | h2
    · subst h1
      simp only [dedupByKeyAux]
      split
      · rename_i hc
        exact absurd (by simpa [List.contains, List.elem_iff] using hc) hs
      · exact ⟨a, List.mem_cons_self _ _, rfl⟩
    · simp only [dedupByKeyAux]
      split
      · exact ih h2 seen hs
      · by_cases hk : key c = key a
        · exact ⟨c, List.mem_cons_self _ _, hk⟩
        · obtain ⟨b, hb, hbk⟩ := ih h2 (key c :: seen)
            (by
              intro hmem
              rcases List.mem_cons.mp hmem with h | h
              · exact hk h.symm
              · exact hs h)
          exact ⟨b, List.mem_cons_of_mem _ hb, hbk⟩

/-- Membership in the `MATCH` stage. -/
theorem mem_matchStage {stem : String → String} {q : String} {db : Db} {f : FtsRow} :
    f ∈ matchStage stem q db ↔
      f ∈ db.fts ∧ ∃ t ∈ jsSplitChar ' ' q, termMatch stem t f = true := by
  simp [matchStage, List.mem_filter, List.any_eq_true]

/-- Membership in the `JOIN` stage. -/
theorem mem_joinStage {db : Db} {ms : List FtsRow} {dr : DocRow} :
    dr ∈ joinStage db ms ↔ ∃ f ∈ ms, dr ∈ db.documentation ∧ dr.id = f.rowid := by
  simp [joinStage, List.mem_flatMap, List.mem_filter]

/-- Membership in the framework filter stage. -/
theorem mem_frameworkStage {fw : Option String} {j : List DocRow} {dr : DocRow} :
    dr ∈ frameworkStage fw j ↔ dr ∈ j ∧ fwPass fw dr = true := by
  cases fw with
  | none => simp [frameworkStage, fwPass]
  | some s =>
    by_cases hs : s == ""
    · simp [frameworkStage, fwPass, hs]
    · simp [frameworkStage, fwPass, hs, List.mem_filter]

/-- The output row keeps the document's id. -/
theorem toDocItem_id (db : Db) (dr : DocRow) : (toDocItem db dr).id = dr.id := rfl

/-- The output row keeps the document's framework. -/
theorem toDocItem_framework (db : Db) (dr : DocRow) :
    (toDocItem db dr).framework = dr.framework := rfl

/-- Characterization of the ids returned by a search: a document id is in
the result exactly when some FTS row with that rowid matches at least
one space-separated query term (OR semantics) and a `documentation` row
with that id passes the framework filter. -/
theorem mem_searchResult_id (stem : String → String) (q : String) (fw : Option String)
    (db : Db) (i : Nat) :
    (∃ r ∈ searchResult stem q fw db, r.id = i) ↔
      ∃ f ∈ db.fts, f.rowid = i ∧ (∃ t ∈ jsSplitChar ' ' q, termMatch stem t f = true) ∧
        ∃ dr ∈ db.documentation, dr.id = i ∧ fwPass fw dr = true := by
  constructor
  · rintro ⟨r, hr, hri⟩
    obtain ⟨b, hb, rfl⟩ := List.mem_map.mp hr
    have hb2 := mem_dedupByKeyAux_imp hb
    obtain ⟨hbj, hbp⟩ := mem_frameworkStage.mp hb2
    obtain ⟨f, hf, hbd, hbid⟩ := mem_joinStage.mp hbj
    obtain ⟨hffts, ht⟩ := mem_matchStage.mp hf
    have hbi : b.id = i := hri
    exact ⟨f, hffts, hbid.symm.trans hbi, ht, b, hbd, hbi, hbp⟩
  · rintro ⟨f, hffts, hfi, ht, dr, hdrd, hdri, hdrp⟩
    have hj : dr ∈ joinStage db (matchStage stem q db) :=
      mem_joinStage.mpr ⟨f, mem_matchStage.mpr ⟨hffts, ht⟩, hdrd, by rw [hdri, hfi]⟩
    have hfs : dr ∈ frameworkStage fw (joinStage db (matchStage stem q db)) :=
      mem_frameworkStage.mpr ⟨hj, hdrp⟩
    obtain ⟨b, hb, hbk⟩ := exists_mem_dedupByKeyAux hfs [] (by simp)
    exact ⟨toDocItem db b, List.mem_map_of_mem _ hb, by rw [toDocItem_id, hbk, hdri]⟩

/-! ## Lemmas about splitting, joining and tokenization -/

/-- Prefix comparison is reflexive. -/
theorem isPrefixList_refl : ∀ l : List Char, isPrefixList l l = true := by
  intro l
  induction l with
  | nil => rfl
  | cons a as ih => simp [isPrefixList, ih]

/-- `split` never yields an empty piece list. -/
theorem splitOnChar_ne_nil (c : Char) (l : List Char) : splitOnChar c l ≠ [] := by
  cases l with
  | nil => simp [splitOnChar]
  | cons a as =>
    simp only [splitOnChar]
    rcases h : splitOnChar c as with _ | ⟨w, ws⟩
    · simp
    · by_cases hac : a == c <;> simp [hac]

/-- Joining the pieces of a split restores the original list. -/
theorem joinWithChar_splitOnChar (c : Char) (l : List Char) :
    joinWithChar c (splitOnChar c l) = l := by
  induction l with
  | nil => rfl
  | cons a as ih =>
    simp only [splitOnChar]
    rcases h : splitOnChar c as with _ | ⟨w, ws⟩
    · exact absurd h (splitOnChar_ne_nil c as)
    · rw [h] at ih
      by_cases hac : a == c
      · have : a = c := by exact beq_iff_eq.mp hac
        subst this
        simp only [hac, if_true]
        cases ws with
        | nil => simpa [joinWithChar] using congrArg (a :: ·) ih
        | cons w2 ws2 => simpa [joinWithChar] using congrArg (a :: ·) ih
      · simp only [hac, if_false]
        cases ws with
        | nil => simpa [joinWithChar] using congrArg (a :: ·) ih
        | cons w2 ws2 => simpa [joinWithChar] using congrArg (a :: ·) ih

/-- A separator-free list splits into itself. -/
theorem splitOnChar_no_sep (c : Char) (w : List Char) (hw : ¬ c ∈ w) :
    splitOnChar c w = [w] := by
  induction w with
  | nil => rfl
  | cons a as ih =>
    have ha : ¬ a == c := by
      intro h
      exact hw (beq_iff_eq.mp h ▸ List.mem_cons_self a as)
    have has : ¬ c ∈ as := fun h => hw (List.mem_cons_of_mem a h)
    simp [splitOnChar, ih has, ha]

/-- Splitting after a separator-free piece peels it off. -/
theorem splitOnChar_sep_append (c : Char) (w t : List Char) (hw : ¬ c ∈ w) :
    splitOnChar c (w ++ c :: t) = w :: splitOnChar c t := by
  induction w with
  | nil =>
    simp only [List.nil_append, splitOnChar]
    rcases h : splitOnChar c t with _ | ⟨w2, ws2⟩
    · exact absurd h (splitOnChar_ne_nil c t)
    · simp
  | cons a as ih =>
    have ha : ¬ a == c := by
      intro h
      exact hw (beq_iff_eq.mp h ▸ List.mem_cons_self a as)
    have has : ¬ c ∈ as := fun h => hw (List.mem_cons_of_mem a h)
    simp [splitOnChar, ih has, ha]

/-- Splitting a join of separator-free pieces restores the pieces. -/
theorem splitOnChar_joinWithChar (c : Char) (ws : List (List Char)) (hne : ws ≠ [])
    (hw : ∀ w ∈ ws, ¬ c ∈ w) : splitOnChar c (joinWithChar c ws) = ws := by
  induction ws with
  | nil => exact absurd rfl hne
  | cons w rest ih =>
    cases rest with
    | nil =>
      simp only [joinWithChar]
      exact splitOnChar_no_sep c w (hw w (List.mem_cons_self _ _))
    | cons w2 rest2 =>
      have : joinWithChar c (w :: w2 :: rest2) = w ++ c :: joinWithChar c (w2 :: rest2) := rfl
      rw [this, splitOnChar_sep_append c w _ (hw w (List.mem_cons_self _ _)),
        ih (by simp) (fun x hx => hw x (List.mem_cons_of_mem _ hx))]

/-- Word extraction distributes over a separator occurrence. -/
theorem wordsByAux_sep_append (keep : Char → Bool) (c : Char) (hc : keep c = false)
    (y : List Char) : ∀ (x acc : List Char),
    wordsByAux keep acc (x ++ c :: y) = wordsByAux keep acc x ++ wordsByAux keep [] y := by
  intro x
  induction x with
  | nil =>
    intro acc
    by_cases ha : acc.isEmpty <;> simp [wordsByAux, hc, ha]
  | cons b bs ih =>
    intro acc
    by_cases hb : keep b
    · simp [wordsByAux, hb, ih]
    · by_cases ha : acc.isEmpty <;> simp [wordsByAux, hb, ha, ih]

/-- Word extraction distributes over a separator-join. -/
theorem wordsBy_joinWithChar (keep : Char → Bool) (c : Char) (hc : keep c = false) :
    ∀ ws : List (List Char),
    wordsBy keep (joinWithChar c ws) = (ws.map (wordsBy keep)).flatten := by
  intro ws
  induction ws with
  | nil => rfl
  | cons w rest ih =>
    cases rest with
    | nil => simp [joinWithChar]
    | cons w2 rest2 =>
      have h1 : joinWithChar c (w :: w2 :: rest2) = w ++ c :: joinWithChar c (w2 :: rest2) := rfl
      rw [wordsBy, h1, wordsByAux_sep_append keep c hc _ w []]
      simp only [List.map_cons, List.flatten_cons]
      rw [← wordsBy, ← wordsBy, ih]
      simp

/-- Mapping a character function commutes with a separator-join. -/
theorem map_joinWithChar (f : Char → Char) (c : Char) :
    ∀ ws : List (List Char),
    (joinWithChar c ws).map f = joinWithChar (f c) (ws.map (List.map f)) := by
  intro ws
  induction ws with
  | nil => rfl
  | cons w rest ih =>
    cases rest with
    | nil => rfl
    | cons w2 rest2 =>
      have h1 : joinWithChar c (w :: w2 :: rest2) = w ++ c :: joinWithChar c (w2 :: rest2) := rfl
      rw [h1]
      simp only [List.map_append, List.map_cons, ih]
      rfl

/-! ## Lemmas about phrase matching -/

/-- A non-empty phrase matches at its own start. -/
theorem phrasePrefixAt_self (ph rest : List (List Char)) (h : ph ≠ []) :
    phrasePrefixAt ph (ph ++ rest) = true := by
  induction ph with
  | nil => exact absurd rfl h
  | cons t ts ih =>
    cases ts with
    | nil => simp [phrasePrefixAt, isPrefixList_refl]
    | cons t2 ts2 =>
      simp only [List.cons_append, phrasePrefixAt, beq_self_eq_true, Bool.true_and]
      exact ih (by simp)

/-- A phrase matching at the head matches the column. -/
theorem phrasePrefixMatch_of_at {ph l : List (List Char)} (h : phrasePrefixAt ph l = true) :
    phrasePrefixMatch ph l = true := by
  cases l with
  | nil => simpa [phrasePrefixMatch] using h
  | cons u us => simp [phrasePrefixMatch, h]

/-- A phrase match survives prepending tokens. -/
theorem phrasePrefixMatch_append {ph t : List (List Char)}
    (h : phrasePrefixMatch ph t = true) : ∀ pre, phrasePrefixMatch ph (pre ++ t) = true := by
  intro pre
  induction pre with
  | nil => simpa
  | cons a as ih =>
    cases h2 : as ++ t with
    | nil => rw [h2] at ih; simp [phrasePrefixMatch, h2, ih]
    | cons u us => rw [h2] at ih; simp [phrasePrefixMatch, h2, ih]

/-- No phrase matches an empty column. -/
theorem phrasePrefixMatch_nil (ph : List (List Char)) : phrasePrefixMatch ph [] = false := by
  cases ph with
  | nil => rfl
  | cons t ts => cases ts <;> rfl

/-- Tokenizing the empty string yields no tokens. -/
theorem tokenize_empty (stem : String → String) : tokenize stem "" = [] := rfl

/-- A space-separated piece of a text tokenizes to a contiguous block of
the text's tokens. -/
theorem tokenize_piece (stem : String → String) (title w : String)
    (hw : w ∈ jsSplitChar ' ' title) :
    ∃ A B, tokenize stem title = A ++ (tokenize stem w ++ B) := by
  obtain ⟨wc, hwc, rfl⟩ := List.mem_map.mp hw
  obtain ⟨l1, l2, hsplit⟩ := List.append_of_mem hwc
  have hjoin : title.toList = joinWithChar ' ' (l1 ++ wc :: l2) := by
    rw [← hsplit, joinWithChar_splitOnChar]
  have hsp : Char.toLower ' ' = ' ' := by decide
  have hlow : title.toList.map Char.toLower =
      joinWithChar ' ' ((l1 ++ wc :: l2).map (List.map Char.toLower)) := by
    rw [hjoin, map_joinWithChar, hsp]
  have hks : isTokenChar ' ' = false := by decide
  refine ⟨((l1.map (List.map Char.toLower)).map (wordsBy isTokenChar)).flatten.map
      (fun t => (stem (String.mk t)).toList),
    ((l2.map (List.map Char.toLower)).map (wordsBy isTokenChar)).flatten.map
      (fun t => (stem (String.mk t)).toList), ?_⟩
  show (wordsBy isTokenChar (title.toList.map Char.toLower)).map _ = _
  rw [hlow, wordsBy_joinWithChar isTokenChar ' ' hks]
  simp only [List.map_append, List.map_cons, List.flatten_append, List.flatten_cons]
  simp [tokenize, wordsBy]

/-- If a query term's tokens form a contiguous block of the `title`
column's tokens, the FTS row matches that term. -/
theorem termMatch_of_title_piece (stem : String → String) (t : String) (f : FtsRow)
    (A B : List (List Char)) (h : tokenize stem f.title = A ++ (tokenize stem t ++ B))
    (hne : tokenize stem t ≠ []) : termMatch stem t f = true := by
  have h1 : phrasePrefixMatch (tokenize stem t) (tokenize stem f.title) = true := by
    rw [h]
    exact phrasePrefixMatch_append
      (phrasePrefixMatch_of_at (phrasePrefixAt_self _ B hne)) A
  simp [termMatch]
  exact Or.inl h1

/-! ## Lemmas about child-row aggregation -/

theorem numberTags_doc_id (docId : Nat) : ∀ (n : Nat) (l : List String),
    ∀ t ∈ numberTags n docId l, t.doc_id = docId := by
  intro n l
  induction l generalizing n with
  | nil => simp [numberTags]
  | cons a as ih =>
    intro t ht
    rcases List.mem_cons.mp ht with h | h
    · rw [h]
    · exact ih (n + 1) t h

theorem numberTags_filter_map (docId : Nat) : ∀ (n : Nat) (l : List String),
    ((numberTags n docId l).filter (fun t => t.doc_id == docId)).map TagRow.tag = l := by
  intro n l
  induction l generalizing n with
  | nil => rfl
  | cons a as ih => simp [numberTags, List.filter, ih (n + 1)]

theorem numberExamples_doc_id (docId : Nat) : ∀ (n : Nat) (l : List String),
    ∀ e ∈ numberExamples n docId l, e.doc_id = docId := by
  intro n l
  induction l generalizing n with
  | nil => simp [numberExamples]
  | cons a as ih =>
    intro e he
    rcases List.mem_cons.mp he with h | h
    · rw [h]
    · exact ih (n + 1) e h

theorem numberExamples_filter_map (docId : Nat) : ∀ (n : Nat) (l : List String),
    ((numberExamples n docId l).filter (fun e => e.doc_id == docId)).map ExampleRow.code
      = l := by
  intro n l
  induction l generalizing n with
  | nil => rfl
  | cons a as ih => simp [numberExamples, List.filter, ih (n + 1)]

theorem filter_doc_id_nil {α : Type} (key : α → Nat) (docId : Nat) (l : List α)
    (h : ∀ x ∈ l, key x < docId) : l.filter (fun x => key x == docId) = [] := by
  induction l with
  | nil => rfl
  | cons a as ih =>
    have ha : ¬ key a == docId := by
      simp only [beq_iff_eq]
      exact Nat.ne_of_lt (h a (List.mem_cons_self a as))
    simp [List.filter, ha, ih (fun x hx => h x (List.mem_cons_of_mem a hx))]

theorem mem_distinctAux (x : String) : ∀ (seen l : List String),
    x ∈ distinctAux seen l ↔ (x ∈ l ∧ ¬ x ∈ seen) := by
  intro seen l
  induction l generalizing seen with
  | nil => simp [distinctAux]
  | cons a as ih =>
    by_cases hc : a ∈ seen
    · have hb : seen.contains a = true := by simpa [List.contains, List.elem_iff]
      simp only [distinctAux, hb, if_true, ih seen, List.mem_cons]
      constructor
      · rintro ⟨h1, h2⟩
        exact ⟨Or.inr h1, h2⟩
      · rintro ⟨h1 | h1, h2⟩
        · exact absurd (h1 ▸ hc) h2
        · exact ⟨h1, h2⟩
    · have hb : seen.contains a = false := by
        rw [Bool.eq_false_iff]
        intro h
        exact hc (by simpa [List.contains, List.elem_iff] using h)
      simp only [distinctAux, hb, Bool.false_eq_true, if_false, List.mem_cons, ih (a :: seen)]
      constructor
      · rintro (h1 | ⟨h1, h2⟩)
        · exact ⟨Or.inl h1, h1 ▸ hc⟩
        · exact ⟨Or.inr h1, fun hmem => h2 (Or.inr hmem)⟩
      · rintro ⟨h1 | h1, h2⟩
        · exact Or.inl h1
        · by_cases hxa : x = a
          · exact Or.inl hxa
          · refine Or.inr ⟨h1, ?_⟩
            intro hmem
            rcases hmem with h | h
            · exact hxa h
            · exact h2 h

theorem mem_sqlDistinct (x : String) (l : List String) : x ∈ sqlDistinct l ↔ x ∈ l := by
  simp [sqlDistinct, mem_distinctAux]

theorem sqlDistinct_ne_nil {l : List String} (h : l ≠ []) : sqlDistinct l ≠ [] := by
  cases l with
  | nil => exact absurd rfl h
  | cons a as => simp [sqlDistinct, distinctAux]

theorem joinWithChar_cons_ne_nil (c : Char) (w : List Char) (ws : List (List Char))
    (hw : w ≠ []) : joinWithChar c (w :: ws) ≠ [] := by
  cases ws with
  | nil => simpa [joinWithChar]
  | cons w2 ws2 =>
    have h1 : joinWithChar c (w :: w2 :: ws2) = w ++ c :: joinWithChar c (w2 :: ws2) := rfl
    rw [h1]
    simp

theorem splitAgg_groupConcat (ds : List String) (hne : ds ≠ [])
    (hd : ∀ s ∈ ds, ¬ s = "" ∧ ¬ ',' ∈ s.toList) :
    splitAgg (groupConcatOpt ',' ds) = ds := by
  cases ds with
  | nil => exact absurd rfl hne
  | cons d0 rest =>
    have h0 := hd d0 (List.mem_cons_self d0 rest)
    have hd0 : d0.toList ≠ [] := by
      intro h
      apply h0.1
      have h2 : d0 = String.mk d0.toList := rfl
      rw [h2, h]
    have hj : joinWithChar ',' ((d0 :: rest).map String.toList) ≠ [] :=
      joinWithChar_cons_ne_nil ',' d0.toList (rest.map String.toList) hd0
    have hbeq : (String.mk (joinWithChar ',' ((d0 :: rest).map String.toList)) == "")
        = false := by
      apply beq_eq_false_iff_ne.mpr
      intro h
      exact hj (by simpa using congrArg String.toList h)
    simp only [groupConcatOpt, List.isEmpty_cons, splitAgg, hbeq, Bool.false_eq_true,
      if_false, jsSplitChar]
    rw [show (String.mk (joinWithChar ',' ((d0 :: rest).map String.toList))).toList =
        joinWithChar ',' ((d0 :: rest).map String.toList) from rfl]
    rw [splitOnChar_joinWithChar ',' _ (by simp) (by
      intro w hw2
      obtain ⟨s, hs, rfl⟩ := List.mem_map.mp hw2
      exact (hd s hs).2)]
    rw [List.map_map]
    exact List.map_id (d0 :: rest)

/-! ## The invariant of reachable store states -/

theorem nodup_map_append_single {α β : Type} (f : α → β) (l : List α) (x : α)
    (h : (l.map f).Nodup) (hx : ∀ a ∈ l, ¬ f a = f x) : ((l ++ [x]).map f).Nodup := by
  rw [List.map_append]
  refine List.Nodup.append h (by simp) ?_
  intro a ha hb
  simp only [List.map_cons, List.map_nil, List.mem_singleton] at hb
  obtain ⟨c, hc, hcf⟩ := List.mem_map.mp ha
  exact hx c hc (hcf.trans hb)

theorem DbInv_empty : DbInv Db.emptyDb := by
  refine ⟨⟨?_, ?_, ?_, ?_⟩, ?_, ?_, ?_, ?_⟩ <;> simp [Db.emptyDb]

theorem DbInv_applyOp {db : Db} (h : DbInv db) (op : StoreOp) : DbInv (applyOp db op) := by
  cases op with
  | pat p =>
    exact ⟨⟨h.docs, h.tagRows, h.exampleRows, h.ftsRows⟩, h.docNodup, h.ftsNodup,
      h.ftsChildless, h.ftsMirror⟩
  | err s =>
    exact ⟨⟨h.docs, h.tagRows, h.exampleRows, h.ftsRows⟩, h.docNodup, h.ftsNodup,
      h.ftsChildless, h.ftsMirror⟩
  | doc d =>
    refine ⟨⟨?_, ?_, ?_, ?_⟩, ?_, ?_, ?_, ?_⟩
    · intro dr hdr
      rcases List.mem_append.mp hdr with h1 | h1
      · exact Nat.lt_succ_of_lt (h.docs dr h1)
      · simp only [List.mem_singleton] at h1
        rw [h1]
        exact Nat.lt_succ_self _
    · intro t ht
      rcases List.mem_append.mp ht with h1 | h1
      · exact Nat.lt_succ_of_lt (h.tagRows t h1)
      · rw [numberTags_doc_id db.nextDocId db.nextTagId d.tags t h1]
        exact Nat.lt_succ_self _
    · intro e he
      rcases List.mem_append.mp he with h1 | h1
      · exact Nat.lt_succ_of_lt (h.exampleRows e h1)
      · rw [numberExamples_doc_id db.nextDocId db.nextExampleId _ e h1]
        exact Nat.lt_succ_self _
    · intro f hf
      rcases List.mem_append.mp hf with h1 | h1
      · exact Nat.lt_succ_of_lt (h.ftsRows f h1)
      · simp only [List.mem_singleton] at h1
        rw [h1]
        exact Nat.lt_succ_self _
    · exact nodup_map_append_single DocRow.id db.documentation _ h.docNodup
        (fun a ha => Nat.ne_of_lt (h.docs a ha))
    · exact nodup_map_append_single FtsRow.rowid db.fts _ h.ftsNodup
        (fun a ha => Nat.ne_of_lt (h.ftsRows a ha))
    · intro f hf
      rcases List.mem_append.mp hf with h1 | h1
      · exact h.ftsChildless f h1
      · simp only [List.mem_singleton] at h1
        rw [h1]
        constructor
        · show groupConcatOpt ' '
            ((db.tags.filter (fun t => t.doc_id == db.nextDocId)).map TagRow.tag) = none
          rw [filter_doc_id_nil TagRow.doc_id db.nextDocId db.tags h.tagRows]
          rfl
        · show groupConcatOpt ' '
            ((db.examples.filter (fun e => e.doc_id == db.nextDocId)).map ExampleRow.code)
            = none
          rw [filter_doc_id_nil ExampleRow.doc_id db.nextDocId db.examples h.exampleRows]
          rfl
    · intro f hf
      rcases List.mem_append.mp hf with h1 | h1
      · obtain ⟨dr, hdr, rest⟩ := h.ftsMirror f h1
        exact ⟨dr, List.mem_append.mpr (Or.inl hdr), rest⟩
      · simp only [List.mem_singleton] at h1
        rw [h1]
        exact ⟨_, List.mem_append.mpr (Or.inr (List.mem_singleton.mpr rfl)),
          rfl, rfl, rfl, rfl, rfl⟩

theorem DbInv_buildDb (ops : List StoreOp) : DbInv (buildDb ops) := by
  suffices h : ∀ db, DbInv db → DbInv (ops.foldl applyOp db) from h Db.emptyDb DbInv_empty
  induction ops with
  | nil => intro db h; exact h
  | cons op rest ih =>
    intro db h
    exact ih _ (DbInv_applyOp h op)

/-! ## Further lemmas feeding the claims -/

/-- `addDocument` on an initialized store: the returned id and state. -/
theorem addDocument_some (db : Db) (d : DocItem) :
    addDocument d (some db) = .ok (db.nextDocId, some (insertedDb db d)) := rfl

/-- A non-blank example is in particular non-empty. -/
theorem isNonBlank_ne_empty {e : String} (h : isNonBlank e = true) : ¬ e = "" := by
  intro he
  rw [he] at h
  simp [isNonBlank] at h

/-- On an FTS row with NULL child aggregates that mirrors a document row,
a term matches exactly when it matches one of the four field columns. -/
theorem termMatch_childless {stem : String → String} {w : String} {f : FtsRow} {dr : DocRow}
    (hch : f.tags = none ∧ f.examples = none)
    (h1 : dr.title = f.title) (h2 : dr.content = f.content) (h3 : dr.category = f.category)
    (h4 : dr.framework = f.framework) :
    termMatch stem w f = ([dr.title, dr.content, dr.category, dr.framework].any
      (fun col => phrasePrefixMatch (tokenize stem w) (tokenize stem col))) := by
  obtain ⟨ht, he⟩ := hch
  simp [termMatch, ht, he, h1, h2, h3, h4, tokenize_empty, phrasePrefixMatch_nil]

/-! ## The claims -/

/-- C1 counterexample. The claim says a `call_tool` request for
`search_offline_docs` with no `query` in `arguments` is answered with a
protocol-level `error.code == -32602`.  On the code, `callTool`'s blanket
catch converts the thrown `InvalidParams` `McpError` into a *successful*
envelope (`error` absent) whose result is the `isError: true` payload
`Error: Query parameter required` — shown here on a concrete request. -/
theorem c1_counterexample :
    handleRequest stemId extUnit (some Db.emptyDb) (Json.obj [("jsonrpc", Json.str "2.0"),
      ("id", Json.num 1), ("method", Json.str "call_tool"),
      ("params", Json.obj [("name", Json.str "search_offline_docs"),
        ("arguments", Json.obj [])])]) =
    .ok (⟨some (Json.num 1), some (toolErrorPayload "Query parameter required"), none⟩,
      some Db.emptyDb) ∧
    (toolErrorPayload "Query parameter required").getField "isError" =
      some (Json.bool true) ∧
    (toolErrorPayload "Query parameter required").getField "content" =
      some (Json.arr [Json.obj [("type", Json.str "text"),
        ("text", Json.str "Error: Query parameter required")]]) :=
  ⟨rfl, rfl, rfl⟩

/-- C1 (amended). For every `call_tool` request whose name is
`search_offline_docs` and whose arguments object lacks a `query` field,
the reply is a *successful* protocol envelope (no JSON-RPC `error`
member) whose result is the tool-error payload with `isError: true` and
text `Error: Query parameter required`; the internally thrown
`InvalidParams` never reaches the protocol error channel, and the store
is unchanged. -/
theorem c1_missing_query_is_tool_error (stem : String → String) (ext : ExtWorld)
    (db : Option Db) (i : Json) (kvs : List (String × Json))
    (hq : assocLookup "query" kvs = none) :
    handleRequest stem ext db (Json.obj [("jsonrpc", Json.str "2.0"), ("id", i),
      ("method", Json.str "call_tool"),
      ("params", Json.obj [("name", Json.str "search_offline_docs"),
        ("arguments", Json.obj kvs)])]) =
    .ok (⟨some i, some (toolErrorPayload "Query parameter required"), none⟩, db) := by
  simp [handleRequest, runHandler, runCallToolHandler, findHandler, Json.getField,
    assocLookup, hq, jsTruthyOpt, jsTruthy, callToolFn, callToolBody, Json.isStrEq,
    HThrow.message]

/-- C1 witness: the amended theorem applied to a concrete request. -/
theorem c1_witness :
    handleRequest stemId extUnit (some Db.emptyDb) (Json.obj [("jsonrpc", Json.str "2.0"),
      ("id", Json.num 5), ("method", Json.str "call_tool"),
      ("params", Json.obj [("name", Json.str "search_offline_docs"),
        ("arguments", Json.obj [])])]) =
    .ok (⟨some (Json.num 5), some (toolErrorPayload "Query parameter required"), none⟩,
      some Db.emptyDb) :=
  c1_missing_query_is_tool_error stemId extUnit (some Db.emptyDb) (Json.num 5) [] rfl

/-- C7. For every `call_tool` request whose params object has no `name`
field, the handler registered by `setupHandlers` throws
`McpError(InvalidParams)` *before* entering `callTool`'s try/catch, so
`handleRequest` answers with a protocol-level JSON-RPC error envelope
`{code: -32602, message: 'Tool name is required'}` (and no result), the
store unchanged. -/
theorem c7_missing_name_invalid_params (stem : String → String) (ext : ExtWorld)
    (db : Option Db) (i : Json) (kvs : List (String × Json))
    (hname : assocLookup "name" kvs = none) :
    handleRequest stem ext db (Json.obj [("jsonrpc", Json.str "2.0"), ("id", i),
      ("method", Json.str "call_tool"), ("params", Json.obj kvs)]) =
    .ok (⟨some i, none, some (codeInvalidParams, "Tool name is required")⟩, db) := by
  simp [handleRequest, runHandler, runCallToolHandler, findHandler, Json.getField,
    assocLookup, hname, jsTruthyOpt]

/-- C7 witness: the theorem applied to a concrete request. -/
theorem c7_witness :
    handleRequest stemId extUnit (some Db.emptyDb) (Json.obj [("jsonrpc", Json.str "2.0"),
      ("id", Json.num 2), ("method", Json.str "call_tool"), ("params", Json.obj [])]) =
    .ok (⟨some (Json.num 2), none, some (codeInvalidParams, "Tool name is required")⟩,
      some Db.emptyDb) :=
  c7_missing_name_invalid_params stemId extUnit (some Db.emptyDb) (Json.num 2) [] rfl

/-- C9 counterexample. The claim covers every request whose `name` field
is present but names none of the nine tools.  The empty string `""` is
such a name, yet `!params.name` is true for it (JS falsiness), so the
reply is a protocol-level `-32602` error — not a successful envelope
with an `isError` payload. -/
theorem c9_counterexample :
    handleRequest stemId extUnit (some Db.emptyDb) (Json.obj [("jsonrpc", Json.str "2.0"),
      ("id", Json.num 4), ("method", Json.str "call_tool"),
      ("params", Json.obj [("name", Json.str ""), ("arguments", Json.obj [])])]) =
    .ok (⟨some (Json.num 4), none, some (codeInvalidParams, "Tool name is required")⟩,
      some Db.emptyDb) ∧
    ¬ ("" : String) ∈ ["fetch_rust_manual", "analyze_cargo_toml", "suggest_improvements",
      "search_rust_manual", "fetch_tauri_docs", "fetch_leptos_docs", "search_offline_docs",
      "get_common_patterns", "find_error_solution"] :=
  ⟨rfl, by decide⟩

/-- C9 (amended). For every `call_tool` request whose `name` is a
*non-empty* string naming none of the nine cataloged tools, the reply is
a successful protocol envelope (no JSON-RPC `error` member) whose result
has `isError: true` and content text `Error: Invalid tool` — the
internally thrown `MethodNotFound` is caught inside `callTool` and never
reaches the protocol error channel. -/
theorem c9_unknown_tool_amended (stem : String → String) (ext : ExtWorld) (db : Option Db)
    (i : Json) (name : String) (kvs : List (String × Json))
    (h0 : ¬ name = "")
    (h1 : ¬ name = "fetch_rust_manual") (h2 : ¬ name = "analyze_cargo_toml")
    (h3 : ¬ name = "suggest_improvements") (h4 : ¬ name = "search_rust_manual")
    (h5 : ¬ name = "fetch_tauri_docs") (h6 : ¬ name = "fetch_leptos_docs")
    (h7 : ¬ name = "search_offline_docs") (h8 : ¬ name = "get_common_patterns")
    (h9 : ¬ name = "find_error_solution") :
    handleRequest stem ext db (Json.obj [("jsonrpc", Json.str "2.0"), ("id", i),
      ("method", Json.str "call_tool"),
      ("params", Json.obj [("name", Json.str name), ("arguments", Json.obj kvs)])]) =
    .ok (⟨some i, some (toolErrorPayload "Invalid tool"), none⟩, db) := by
  simp [handleRequest, runHandler, runCallToolHandler, findHandler, Json.getField,
    assocLookup, jsTruthyOpt, jsTruthy, callToolFn, callToolBody, Json.isStrEq,
    HThrow.message, h0, h1, h2, h3, h4, h5, h6, h7, h8, h9]

/-- C9 witness: the amended theorem applied to a concrete unknown name. -/
theorem c9_witness :
    handleRequest stemId extUnit (some Db.emptyDb) (Json.obj [("jsonrpc", Json.str "2.0"),
      ("id", Json.num 3), ("method", Json.str "call_tool"),
      ("params", Json.obj [("name", Json.str "bogus_tool"), ("arguments", Json.obj [])])]) =
    .ok (⟨some (Json.num 3), some (toolErrorPayload "Invalid tool"), none⟩,
      some Db.emptyDb) :=
  c9_unknown_tool_amended stemId extUnit (some Db.emptyDb) (Json.num 3) "bogus_tool" []
    (by decide) (by decide) (by decide) (by decide) (by decide) (by decide) (by decide)
    (by decide) (by decide) (by decide)

/-- C6. Protocol framing, both scenarios of the claim.  Feeding the line
`not-json` makes `JSON.parse` throw, so the engine replies with
`error.code == -32700` under a locally generated id taken from its own
monotonically increasing counter (which is incremented).  Feeding
`{"jsonrpc":"2.0","id":7,"method":"nope","params":{}}` parses, finds no
handler for `nope`, and replies `error.code == -32601` with `id == 7`. -/
theorem c6_protocol_framing (stem : String → String) (ext : ExtWorld) (st : EngineState) :
    (onLine stem ext st "not-json" =
      ({ st with nextRequestId := st.nextRequestId + 1 }, parseErrorResp st.nextRequestId) ∧
     (parseErrorResp st.nextRequestId).error = some (codeParseError, "Parse error") ∧
     (parseErrorResp st.nextRequestId).id = some (Json.num (Int.ofNat st.nextRequestId))) ∧
    ((onLine stem ext st
        "\x7b\"jsonrpc\":\"2.0\",\"id\":7,\"method\":\"nope\",\"params\":\x7b\x7d\x7d").2.error =
      some (codeMethodNotFound, "Method not found: nope") ∧
     (onLine stem ext st
        "\x7b\"jsonrpc\":\"2.0\",\"id\":7,\"method\":\"nope\",\"params\":\x7b\x7d\x7d").2.id =
      some (Json.num 7)) :=
  ⟨⟨rfl, rfl, rfl⟩, rfl, rfl⟩

/-- C6 witness: the theorem applied to a concrete engine state. -/
theorem c6_witness :
    (onLine stemId extUnit ⟨some Db.emptyDb, 1⟩ "not-json" =
      (⟨some Db.emptyDb, 2⟩, parseErrorResp 1) ∧
     (parseErrorResp 1).error = some (codeParseError, "Parse error") ∧
     (parseErrorResp 1).id = some (Json.num (Int.ofNat 1))) ∧
    ((onLine stemId extUnit ⟨some Db.emptyDb, 1⟩
        "\x7b\"jsonrpc\":\"2.0\",\"id\":7,\"method\":\"nope\",\"params\":\x7b\x7d\x7d").2.error =
      some (codeMethodNotFound, "Method not found: nope") ∧
     (onLine stemId extUnit ⟨some Db.emptyDb, 1⟩
        "\x7b\"jsonrpc\":\"2.0\",\"id\":7,\"method\":\"nope\",\"params\":\x7b\x7d\x7d").2.id =
      some (Json.num 7)) :=
  c6_protocol_framing stemId extUnit ⟨some Db.emptyDb, 1⟩

/-- C8. Every store operation (`addDocument`, `addPattern`,
`addErrorSolution`, `searchDocs`, `findErrorSolutions`,
`getPatternsByFramework`) invoked before `initialize()` has completed —
i.e. while `this.db` is still null — throws `Database not initialized`
and returns no result; since the operations are modelled as pure
functions of the state, no state is produced or corrupted on that
path. -/
theorem c8_not_initialized (stem : String → String) (d : DocItem) (p : PatternRow)
    (s : ErrRow) (q : String) (fw : Option String) (e fw2 : String) :
    addDocument d none = .error "Database not initialized" ∧
    addPattern p none = .error "Database not initialized" ∧
    addErrorSolution s none = .error "Database not initialized" ∧
    searchDocs stem q fw none = .error "Database not initialized" ∧
    findErrorSolutions e none = .error "Database not initialized" ∧
    getPatternsByFramework fw2 none = .error "Database not initialized" :=
  ⟨rfl, rfl, rfl, rfl, rfl, rfl⟩

/-- C8 witness: the theorem applied to concrete inputs. -/
theorem c8_witness :
    addDocument w8doc none = .error "Database not initialized" ∧
    addPattern w8pat none = .error "Database not initialized" ∧
    addErrorSolution w8err none = .error "Database not initialized" ∧
    searchDocs stemId "q" none none = .error "Database not initialized" ∧
    findErrorSolutions "e" none = .error "Database not initialized" ∧
    getPatternsByFramework "tauri" none = .error "Database not initialized" :=
  c8_not_initialized stemId w8doc w8pat w8err "q" none "e" "tauri"

/-- C4 counterexample. The claim says `findErrorSolutions` returns exactly
the rows whose `error_pattern` contains the query as a *case-sensitive*
substring.  SQLite `LIKE` folds ASCII case, so the query `ABC` returns
the row whose pattern is `abc`, although `ABC` is not a case-sensitive
substring of `abc` (`specContainsCS` is the spec's predicate). -/
theorem c4_counterexample :
    findErrorSolutions "ABC" (some c4db) = .ok [c4row] ∧
    specContainsCS "abc" "ABC" = false := by
  constructor
  · simp [findErrorSolutions, c4db, c4row, Db.emptyDb, likeMatch, lowAscii]
  · rfl

/-- C4 (amended). For every wildcard-free `errorText` (no `%` or `_`),
`findErrorSolutions(errorText)` returns exactly the rows whose
`error_pattern` contains `errorText` as an ASCII-*case-insensitive*
substring, in table (insertion) order — the order-preserving filter over
the append-only `error_solutions` table.  (A `%` or `_` in the input
would act as a LIKE wildcard.) -/
theorem c4_substring_amended (db : Db) (e : String)
    (hW : ∀ c ∈ e.toList, ¬ c = '%' ∧ ¬ c = '_') :
    findErrorSolutions e (some db) = .ok (db.error_solutions.filter
      (fun r => isInfixB (e.toList.map lowAscii) (r.error_pattern.toList.map lowAscii))) := by
  simp only [findErrorSolutions]
  congr 1
  apply List.filter_congr
  intro r _
  exact likeMatch_infix e.toList hW r.error_pattern.toList

/-- C4 witness: the amended theorem applied to a concrete store and query. -/
theorem c4_witness :
    findErrorSolutions "abc" (some c4db) = .ok (c4db.error_solutions.filter
      (fun r => isInfixB ("abc".toList.map lowAscii)
        (r.error_pattern.toList.map lowAscii))) :=
  c4_substring_amended c4db "abc" (by decide)

/-- C5 counterexample. The claim says that whenever a framework argument
is given, every returned document's framework equals it.  For the
argument `""` the code's `framework ? 'AND d.framework = ?' : ''` is
falsy, the filter is dropped, and a `leptos` document is returned
although `"leptos" ≠ ""`. -/
theorem c5_counterexample :
    ∃ r, searchDocs stemId "alpha" (some "") (some c5db) = .ok [r] ∧
      r.framework = "leptos" ∧ ¬ r.framework = "" :=
  ⟨_, rfl, rfl, by decide⟩

/-- C5 (amended). For every *non-empty* framework argument `s`, every
document returned by `searchDocs(q, s)` has `framework = s` — in
particular a document with framework `leptos` is never returned by
`search(term, "tauri")`. -/
theorem c5_framework_filter_amended (stem : String → String) (q s : String) (db : Db)
    (res : List DocItem) (r : DocItem) (hs : ¬ s = "")
    (hres : searchDocs stem q (some s) (some db) = .ok res) (hr : r ∈ res) :
    r.framework = s := by
  have hre : res = searchResult stem q (some s) db := by
    have h2 := searchDocs_eq stem q (some s) db
    rw [hres] at h2
    exact Except.ok.inj h2
  subst hre
  obtain ⟨b, hb, rfl⟩ := List.mem_map.mp hr
  obtain ⟨-, hbp⟩ := mem_frameworkStage.mp (mem_dedupByKeyAux_imp hb)
  rw [toDocItem_framework]
  have hseq : (s == "") = false := beq_eq_false_iff_ne.mpr hs
  simp only [fwPass, hseq, Bool.false_eq_true, if_false] at hbp
  exact beq_iff_eq.mp hbp

/-- C5 witness: a store with a `leptos` and a `tauri` document sharing the
title term `alpha`; the filtered search returns only `tauri` rows. -/
theorem c5_witness :
    ∃ res, searchDocs stemId "alpha" (some "tauri") (some c5db2) = .ok res ∧
      ∀ r ∈ res, r.framework = "tauri" :=
  ⟨_, rfl, fun r hr =>
    c5_framework_filter_amended stemId "alpha" "tauri" c5db2 _ r (by decide) rfl hr⟩

/-- C3 counterexample. The claim says the query text is split on
*whitespace* into OR-combined terms, so a document matching any single
term is returned.  The code splits on the space character only
(`query.split(' ')`): for the tab-separated query `alpha\tbeta` the
whole text becomes one quoted FTS phrase of two tokens, and the stored
document whose FTS row matches the whitespace-term `alpha` is *not*
returned — the result is empty. -/
theorem c3_counterexample :
    searchDocs stemId "alpha\tbeta" none (some c3db) = .ok [] ∧
    "alpha" ∈ specWhitespaceSplit "alpha\tbeta" ∧
    (∃ f ∈ c3db.fts, termMatch stemId "alpha" f = true ∧
      ∃ dr ∈ c3db.documentation, dr.id = f.rowid) :=
  ⟨rfl, by decide, by decide⟩

/-- C3 (amended). The query is split on the *space character* into terms;
each term is a wildcarded prefix phrase against the index and the terms
are OR-combined: for every store, query and framework argument, a
document id is returned exactly when some FTS row with that rowid
matches at least *one* space-separated term (not all of them) and the
corresponding document row passes the framework filter. -/
theorem c3_or_semantics_amended (stem : String → String) (q : String) (fw : Option String)
    (db : Db) (i : Nat) :
    ∃ res, searchDocs stem q fw (some db) = .ok res ∧
      ((∃ r ∈ res, r.id = i) ↔
        ∃ f ∈ db.fts, f.rowid = i ∧ (∃ t ∈ jsSplitChar ' ' q, termMatch stem t f = true) ∧
          ∃ dr ∈ db.documentation, dr.id = i ∧ fwPass fw dr = true) :=
  ⟨searchResult stem q fw db, searchDocs_eq stem q fw db,
    mem_searchResult_id stem q fw db i⟩

/-- C3 witness: the amended theorem applied to a concrete store and the
spec's own test query `alpha beta`. -/
theorem c3_witness :
    ∃ res, searchDocs stemId "alpha beta" none (some c3db) = .ok res ∧
      ((∃ r ∈ res, r.id = 1) ↔
        ∃ f ∈ c3db.fts, f.rowid = 1 ∧
          (∃ t ∈ jsSplitChar ' ' "alpha beta", termMatch stemId t f = true) ∧
          ∃ dr ∈ c3db.documentation, dr.id = 1 ∧ fwPass none dr = true) :=
  c3_or_semantics_amended stemId "alpha beta" none c3db 1

/-- C2 counterexample. The claim promises, for every valid document, a
round-trip whose returned example set equals the inserted one (minus
blanks).  `searchDocs` re-splits the `GROUP_CONCAT(DISTINCT e.code)`
aggregate on `','`, so the single example `f(a, b)` comes back as the
two fragments `f(a` and ` b)` — the inserted example is not in the
returned set. -/
theorem c2_counterexample :
    ∃ st2, addDocument c2doc (initDb none) = .ok (1, st2) ∧
    ∃ r, searchDocs stemId "roundtrip" none st2 = .ok [r] ∧
      r.examples = ["f(a", " b)"] ∧ c2doc.examples.filter isNonBlank = ["f(a, b)"] ∧
      ¬ "f(a, b)" ∈ ["f(a", " b)"] :=
  ⟨_, rfl, _, rfl, rfl, rfl, by decide⟩

/-- C2 (amended). For every valid document `d` (all six text fields
non-empty) whose tags are non-empty and comma-free, whose examples are
comma-free, and whose title has at least one space-separated word that
tokenizes to something, inserting `d` into any well-formed store and
then searching `d.title` with no framework filter returns a result set
containing a document with `d`'s title and crate, whose tag set equals
`d.tags` and whose example set equals `d.examples` with blank
(whitespace-only) examples removed — both as sets. -/
theorem c2_roundtrip_amended (stem : String → String) (db : Db) (d : DocItem)
    (hwf : DbWf db)
    (_hvalid : ¬ d.crate = "" ∧ ¬ d.version = "" ∧ ¬ d.title = "" ∧ ¬ d.content = "" ∧
      ¬ d.category = "" ∧ ¬ d.framework = "")
    (hterm : ∃ w ∈ jsSplitChar ' ' d.title, ¬ tokenize stem w = [])
    (htags : ∀ tg ∈ d.tags, ¬ tg = "" ∧ ¬ ',' ∈ tg.toList)
    (hexs : ∀ e ∈ d.examples, ¬ ',' ∈ e.toList) :
    ∃ docId st2 res, addDocument d (some db) = .ok (docId, st2) ∧
      searchDocs stem d.title none st2 = .ok res ∧
      ∃ r ∈ res, r.title = d.title ∧ r.crate = d.crate ∧
        (∀ x, x ∈ r.tags ↔ x ∈ d.tags) ∧
        (∀ x, x ∈ r.examples ↔ x ∈ d.examples.filter isNonBlank) := by
  obtain ⟨w, hw, hwne⟩ := hterm
  refine ⟨db.nextDocId, some (insertedDb db d),
    searchResult stem d.title none (insertedDb db d), addDocument_some db d,
    searchDocs_eq stem d.title none (insertedDb db d), ?_⟩
  have hfmem : newFtsRow db d ∈ (insertedDb db d).fts :=
    List.mem_append.mpr (Or.inr (List.mem_singleton.mpr rfl))
  have hdmem : newDocRow db d ∈ (insertedDb db d).documentation :=
    List.mem_append.mpr (Or.inr (List.mem_singleton.mpr rfl))
  obtain ⟨A, B, hAB⟩ := tokenize_piece stem d.title w hw
  have htm : termMatch stem w (newFtsRow db d) = true :=
    termMatch_of_title_piece stem w (newFtsRow db d) A B hAB hwne
  have hmatch : newFtsRow db d ∈ matchStage stem d.title (insertedDb db d) :=
    mem_matchStage.mpr ⟨hfmem, w, hw, htm⟩
  have hjoin : newDocRow db d ∈ joinStage (insertedDb db d)
      (matchStage stem d.title (insertedDb db d)) :=
    mem_joinStage.mpr ⟨newFtsRow db d, hmatch, hdmem, rfl⟩
  have hfwk : newDocRow db d ∈ frameworkStage none (joinStage (insertedDb db d)
      (matchStage stem d.title (insertedDb db d))) :=
    mem_frameworkStage.mpr ⟨hjoin, rfl⟩
  obtain ⟨b, hb, hbk⟩ := @exists_mem_dedupByKeyAux DocRow.id _ _ hfwk [] (by simp)
  have hbeq : b = newDocRow db d := by
    have hb2 := mem_dedupByKeyAux_imp hb
    obtain ⟨hbj, -⟩ := mem_frameworkStage.mp hb2
    obtain ⟨f2, hf2, hbdocs, hbid⟩ := mem_joinStage.mp hbj
    rcases List.mem_append.mp hbdocs with h1 | h1
    · have hlt := hwf.docs b h1
      rw [hbk] at hlt
      exact absurd hlt (Nat.lt_irrefl _)
    · exact List.mem_singleton.mp h1
  subst hbeq
  refine ⟨toDocItem (insertedDb db d) (newDocRow db d),
    List.mem_map_of_mem _ hb, rfl, rfl, ?_, ?_⟩
  · have htagagg : (((insertedDb db d).tags.filter
        (fun t => t.doc_id == (newDocRow db d).id)).map TagRow.tag) = d.tags := by
      show (((db.tags ++ numberTags db.nextTagId db.nextDocId d.tags).filter
        (fun t => t.doc_id == db.nextDocId)).map TagRow.tag) = d.tags
      rw [List.filter_append, List.map_append,
        filter_doc_id_nil TagRow.doc_id db.nextDocId db.tags hwf.tagRows,
        numberTags_filter_map db.nextDocId db.nextTagId d.tags]
      rfl
    intro x
    show x ∈ splitAgg (groupConcatOpt ',' (sqlDistinct (((insertedDb db d).tags.filter
      (fun t => t.doc_id == (newDocRow db d).id)).map TagRow.tag))) ↔ x ∈ d.tags
    rw [htagagg]
    cases hdt : d.tags with
    | nil => simp [sqlDistinct, distinctAux, groupConcatOpt, splitAgg]
    | cons t0 ts =>
      rw [splitAgg_groupConcat (sqlDistinct (t0 :: ts))
        (sqlDistinct_ne_nil (by simp))
        (fun s hs => htags s (hdt ▸ (mem_sqlDistinct s (t0 :: ts)).mp hs))]
      rw [mem_sqlDistinct]
  · have hexagg : (((insertedDb db d).examples.filter
        (fun e => e.doc_id == (newDocRow db d).id)).map ExampleRow.code)
        = d.examples.filter isNonBlank := by
      show (((db.examples ++ numberExamples db.nextExampleId db.nextDocId
        (d.examples.filter isNonBlank)).filter
        (fun e => e.doc_id == db.nextDocId)).map ExampleRow.code)
        = d.examples.filter isNonBlank
      rw [List.filter_append, List.map_append,
        filter_doc_id_nil ExampleRow.doc_id db.nextDocId db.examples hwf.exampleRows,
        numberExamples_filter_map db.nextDocId db.nextExampleId
          (d.examples.filter isNonBlank)]
      rfl
    intro x
    show x ∈ splitAgg (groupConcatOpt ',' (sqlDistinct (((insertedDb db d).examples.filter
      (fun e => e.doc_id == (newDocRow db d).id)).map ExampleRow.code))) ↔
      x ∈ d.examples.filter isNonBlank
    rw [hexagg]
    cases hde : d.examples.filter isNonBlank with
    | nil => simp [sqlDistinct, distinctAux, groupConcatOpt, splitAgg]
    | cons e0 es =>
      rw [splitAgg_groupConcat (sqlDistinct (e0 :: es))
        (sqlDistinct_ne_nil (by simp))
        (fun s hs => ?_)]
      · rw [mem_sqlDistinct]
      · have hs2 : s ∈ d.examples.filter isNonBlank :=
          hde ▸ (mem_sqlDistinct s (e0 :: es)).mp hs
        obtain ⟨hsmem, hsnb⟩ := List.mem_filter.mp hs2
        exact ⟨isNonBlank_ne_empty hsnb, hexs s hsmem⟩

/-- C2 witness: the amended theorem applied to a concrete valid document
(two tags, one code example and one whitespace-only example) inserted
into a fresh store. -/
theorem c2_witness :
    ∃ docId st2 res, addDocument c2wdoc (some Db.emptyDb) = .ok (docId, st2) ∧
      searchDocs stemId c2wdoc.title none st2 = .ok res ∧
      ∃ r ∈ res, r.title = c2wdoc.title ∧ r.crate = c2wdoc.crate ∧
        (∀ x, x ∈ r.tags ↔ x ∈ c2wdoc.tags) ∧
        (∀ x, x ∈ r.examples ↔ x ∈ c2wdoc.examples.filter isNonBlank) :=
  c2_roundtrip_amended stemId Db.emptyDb c2wdoc
    ⟨by simp [Db.emptyDb], by simp [Db.emptyDb], by simp [Db.emptyDb], by simp [Db.emptyDb]⟩
    (by decide) ⟨"hello", by decide, by decide⟩ (by decide) (by decide)

/-- C10. In every store state reachable by a sequence of insert
operations from a fresh database, each `documentation_fts` entry was
created by the AFTER INSERT trigger before any tag or example child rows
existed, so its `tags` and `examples` columns are NULL; consequently,
for a stored document `dr` and a query whose space-separated terms
prefix-match none of `dr`'s `title`, `content`, `category` or
`framework` columns (in particular a term occurring only in its tags or
examples), `searchDocs` never returns `dr`. -/
theorem c10_fts_childless_consequence (stem : String → String) (ops : List StoreOp)
    (dr : DocRow) (t : String) (hdr : dr ∈ (buildDb ops).documentation)
    (hnm : ∀ w ∈ jsSplitChar ' ' t,
      ([dr.title, dr.content, dr.category, dr.framework].any
        (fun col => phrasePrefixMatch (tokenize stem w) (tokenize stem col))) = false) :
    (∀ f ∈ (buildDb ops).fts, f.tags = none ∧ f.examples = none) ∧
    ∃ res, searchDocs stem t none (some (buildDb ops)) = .ok res ∧
      ∀ r ∈ res, ¬ r.id = dr.id := by
  have hinv := DbInv_buildDb ops
  refine ⟨hinv.ftsChildless, searchResult stem t none (buildDb ops),
    searchDocs_eq stem t none (buildDb ops), ?_⟩
  intro r hr hrid
  have hex : ∃ r2 ∈ searchResult stem t none (buildDb ops), r2.id = dr.id := ⟨r, hr, hrid⟩
  obtain ⟨f, hf, hfid, ⟨w, hw, hwm⟩, -⟩ :=
    (mem_searchResult_id stem t none (buildDb ops) dr.id).mp hex
  obtain ⟨dr2, hdr2, hdr2id, hm1, hm2, hm3, hm4⟩ := hinv.ftsMirror f hf
  have hdd : dr2 = dr :=
    List.inj_on_of_nodup_map hinv.docNodup hdr2 hdr (by rw [hdr2id, hfid])
  subst hdd
  rw [termMatch_childless (hinv.ftsChildless f hf) hm1 hm2 hm3 hm4] at hwm
  rw [hnm w hw] at hwm
  simp at hwm

/-- C10 witness: a document whose tag `zebra` occurs in no other field;
after inserting it, its FTS entry has NULL child columns and searching
`zebra` does not return it. -/
theorem c10_witness :
    (∀ f ∈ (buildDb [StoreOp.doc c10doc]).fts, f.tags = none ∧ f.examples = none) ∧
    ∃ res, searchDocs stemId "zebra" none (some (buildDb [StoreOp.doc c10doc])) = .ok res ∧
      ∀ r ∈ res, ¬ r.id = c10row.id :=
  c10_fts_childless_consequence stemId [StoreOp.doc c10doc] c10row "zebra"
    (by decide) (by decide)
